import Mathlib

/-!
Verification of the GamesmanExperiment tier-solver worker
(`src/core/solvers/tier_solver/tier_worker.c`).

The development shallowly embeds the worker module: 64-bit machine
integers become `Int`/`Nat` (overflow is modelled explicitly with `% 256`
where the 8-bit `num_undecided_children` counters are written), the
game/database collaborators become explicit function records, and the
OpenMP data-parallel loops are given their single-thread sequential
semantics (the `_OPENMP`-off build of the same file).  Allocation
failures (OOM sentinels such as `kIllegalSize` array sizes) are not
modelled: every allocation in the model succeeds, which corresponds to
runs of the program in which no allocation fails.  The `Frontier` and
`ReverseGraph` data structures are implemented in translation units that
are not part of the sources at hand; their operations are modelled from
the specification's contracts (see the doc comments marked
"Modelled from the spec").
-/

namespace Gamesman

/-!
`Int` and `Int` are both `int64_t` in the source (a tier is an opaque
64-bit identifier; a position is a 64-bit hash that can be negative in
error situations, which the tester checks for); both are embedded as `Int`.
-/

/-- Game value enum (`Value` in gamesman_types).  The five values used by the
worker module. -/
inductive Value where
  | undecided
  | lose
  | draw
  | tie
  | win
  deriving DecidableEq, Repr

/-- The pair identifying a game state globally (`TierPosition` in the source). -/
structure TierPosition where
  tier : Int
  position : Int
  deriving DecidableEq, Repr

/-- Return codes used by `TierWorkerSolve`: `kNoError` and the failure code. -/
inductive ErrorCode where
  | noError
  | runtimeError
  deriving DecidableEq, Repr

/-- Database tier status (`kDbTierStatusSolved` is the one the worker tests). -/
inductive DbTierStatus where
  | solved
  | corrupted
  | missing
  | checkError
  deriving DecidableEq, Repr

/-- Modelled from the spec: `kRemotenessMax` from core/constants.h (the
constants translation unit is not among the sources); the spec fixes
R_max = 1023. -/
def kRemotenessMax : Nat := 1023

/-- `kFrontierSize = kRemotenessMax + 1` (tier_worker.c). -/
def kFrontierSize : Nat := kRemotenessMax + 1

/-- The subset of the `TierSolverApi` callback table consumed by the worker
module.  Optional callbacks are `Option`-valued exactly when the worker
tests them against `NULL`; the remaining optional callbacks
(`GetCanonicalPosition`, `GetCanonicalTier`, ...) are modelled as total
because the worker calls them unconditionally (the manager installs
defaults before `TierWorkerInit`). -/
structure SolverApi where
  getTierSize : Int → Nat
  isLegalPosition : TierPosition → Bool
  primitive : TierPosition → Value
  getCanonicalPosition : TierPosition → Int
  getNumberOfCanonicalChildPositions : TierPosition → Nat
  getCanonicalChildPositions : TierPosition → List TierPosition
  getCanonicalParentPositions : Option (TierPosition → Int → List Int)
  getPositionInSymmetricTier : TierPosition → Int → Int
  getChildTiers : Int → List Int
  getCanonicalTier : Int → Int

/-- Modelled from the spec: the database collaborator (db_manager is an
external oracle per the spec).  `probeValue`/`probeRemoteness` read the
stored records of solved tiers; `DbManagerLoadTier` followed by
`GetValueFromLoaded`/`GetRemotenessFromLoaded` reads the same stored
records, so the loaded view is identified with the probe view.
`refValue`/`refRemoteness` are the reference-database mirrors used by
compare mode. -/
structure Db where
  tierStatus : Int → DbTierStatus
  probeValue : TierPosition → Value
  probeRemoteness : TierPosition → Int
  refValue : TierPosition → Value
  refRemoteness : TierPosition → Int

/-- The list `[0, 1, ..., n-1]` of positions of a tier of size `n`
(the iteration space of every per-position loop in the worker). -/
def positionsOfSize (n : Nat) : List Int :=
  (List.range n).map (fun m : Nat => (m : Int))

/-- Modelled from the spec: a frontier keyed by remoteness.  The spec
describes the frontier as "an ordered collection of
(position, remoteness, child_tier_index) keyed by remoteness"; the
dividers machinery of frontier.c is an O(1) encoding of the per-record
child index, which the model stores directly on each record. -/
abbrev Frontier := Nat → List (Int × Nat)

/-- Modelled from the spec: `FrontierAdd(dest, position, remoteness,
child_index)` appends the record into the bucket of the given remoteness. -/
def frontierAdd (f : Frontier) (position : Int) (remoteness : Nat)
    (childIndex : Nat) : Frontier :=
  Function.update f remoteness (f remoteness ++ [(position, childIndex)])

/-- The mutable state of one loopy tier solve: the in-memory record table of
the solving tier (value and remoteness per position, created undecided by
`DbManagerCreateSolvingTier`), the `num_undecided_children` byte array
(calloc'ed to zero), the three frontiers (single worker thread), and the
reverse graph (empty unless the game lacks `GetCanonicalParentPositions`). -/
structure SolveState where
  record : Int → Value × Nat
  counters : Int → Nat
  winF : Frontier
  loseF : Frontier
  tieF : Frontier
  rg : TierPosition → List Int

/-- The state at the start of a solve: records undecided, counters zero,
frontiers and reverse graph empty. -/
def initialSolveState : SolveState :=
  { record := fun _ => (Value.undecided, 0)
    counters := fun _ => 0
    winF := fun _ => []
    loseF := fun _ => []
    tieF := fun _ => []
    rg := fun _ => [] }

/-- `CheckAndLoadFrontier` (tier_worker.c): reject a negative probed
remoteness, skip undecided and drawing records, and push the rest into the
frontier of their value, tagged with the child index.  (The source's
`default` branch rejecting out-of-enum probe results is unrepresentable
here because `Value` is exact.) -/
def checkAndLoadFrontier (s : SolveState) (childIndex : Nat)
    (position : Int) (value : Value) (remoteness : Int) :
    SolveState × Bool :=
  if remoteness < 0 then (s, false)
  else
    match value with
    | .undecided => (s, true)
    | .draw => (s, true)
    | .win => ({ s with winF := frontierAdd s.winF position remoteness.toNat childIndex }, true)
    | .lose => ({ s with loseF := frontierAdd s.loseF position remoteness.toNat childIndex }, true)
    | .tie => ({ s with tieF := frontierAdd s.tieF position remoteness.toNat childIndex }, true)

/-- `IsCanonicalTier` (tier_worker.c). -/
def isCanonicalTier (api : SolverApi) (tier : Int) : Bool :=
  api.getCanonicalTier tier = tier

/-- `IsCanonicalPosition` (tier_worker.c): a position of the solving tier is
canonical when `GetCanonicalPosition` maps it to itself. -/
def isCanonicalPosition (api : SolverApi) (tier : Int) (position : Int) : Bool :=
  api.getCanonicalPosition ⟨tier, position⟩ = position

/-- Loop body of `Step1_0LoadCanonicalTier`: probe value and remoteness of one
position of a canonical child tier and feed them to `CheckAndLoadFrontier`,
and-accumulating the success flag (the parallel loop cannot break early). -/
def loadCanonicalPos (api : SolverApi) (db : Db) (childTier : Int)
    (childIndex : Nat) (acc : SolveState × Bool) (position : Int) :
    SolveState × Bool :=
  let _ := api
  let tp : TierPosition := ⟨childTier, position⟩
  let value := db.probeValue tp
  let remoteness := db.probeRemoteness tp
  let r := checkAndLoadFrontier acc.1 childIndex position value remoteness
  (r.1, acc.2 && r.2)

/-- `Step1_0LoadCanonicalTier` (tier_worker.c): scan a canonical child tier
and load its non-drawing records into the frontiers. -/
def step1_0LoadCanonicalTier (api : SolverApi) (db : Db)
    (childTiers : List Int) (childIndex : Nat) (s : SolveState) :
    SolveState × Bool :=
  let childTier := childTiers.getD childIndex 0
  (positionsOfSize (api.getTierSize childTier)).foldl
    (loadCanonicalPos api db childTier childIndex) (s, true)

/-- Loop body of `Step1_1LoadNonCanonicalTier`: probe the canonical tier's
record, skip undecided and drawing records before converting the hash, and
otherwise translate the position into the non-canonical tier via
`GetPositionInSymmetricTier` and load it. -/
def loadNonCanonicalPos (api : SolverApi) (db : Db)
    (origTier canonicalTier : Int) (childIndex : Nat)
    (acc : SolveState × Bool) (position : Int) : SolveState × Bool :=
  let ctp : TierPosition := ⟨canonicalTier, position⟩
  let value := db.probeValue ctp
  if value = .undecided ∨ value = .draw then acc
  else
    let remoteness := db.probeRemoteness ctp
    let positionInNoncanonicalTier := api.getPositionInSymmetricTier ctp origTier
    let r := checkAndLoadFrontier acc.1 childIndex
      positionInNoncanonicalTier value remoteness
    (r.1, acc.2 && r.2)

/-- `Step1_1LoadNonCanonicalTier` (tier_worker.c): scan the canonical tier of
a non-canonical child tier and load its records, translated back into the
non-canonical tier. -/
def step1_1LoadNonCanonicalTier (api : SolverApi) (db : Db)
    (childTiers : List Int) (childIndex : Nat) (s : SolveState) :
    SolveState × Bool :=
  let origTier := childTiers.getD childIndex 0
  let canonicalTier := api.getCanonicalTier origTier
  (positionsOfSize (api.getTierSize canonicalTier)).foldl
    (loadNonCanonicalPos api db origTier canonicalTier childIndex) (s, true)

/-- The sequential walk over child tiers in `Step1LoadChildren`: child tiers
are processed in order; a failing child tier aborts the walk. -/
def step1Loop (api : SolverApi) (db : Db) (childTiers : List Int) :
    List Nat → SolveState → SolveState × Bool
  | [], s => (s, true)
  | childIndex :: rest, s =>
    let childTier := childTiers.getD childIndex 0
    let r :=
      if isCanonicalTier api childTier then
        step1_0LoadCanonicalTier api db childTiers childIndex s
      else
        step1_1LoadNonCanonicalTier api db childTiers childIndex s
    if r.2 then step1Loop api db childTiers rest r.1 else (r.1, false)

/-- `Step1LoadChildren` (tier_worker.c): the child-tier indices run over
`child_tiers.size - 1` entries, excluding the solving tier appended at the
back. -/
def step1LoadChildren (api : SolverApi) (db : Db) (childTiers : List Int)
    (s : SolveState) : SolveState × Bool :=
  step1Loop api db childTiers (List.range (childTiers.length - 1)) s

/-- `Step3_0CountChildren` (tier_worker.c): with retrograde analysis
available, ask the game for the count; otherwise enumerate the canonical
children, registering the position as each child's parent in the reverse
graph ("Modelled from the spec": `ReverseGraphAdd` appends the parent to
the child's bag). -/
def step3_0CountChildren (api : SolverApi) (tier : Int)
    (position : Int) (s : SolveState) : Nat × SolveState :=
  match api.getCanonicalParentPositions with
  | some _ => (api.getNumberOfCanonicalChildPositions ⟨tier, position⟩, s)
  | none =>
    let children := api.getCanonicalChildPositions ⟨tier, position⟩
    (children.length,
      children.foldl
        (fun s c => { s with rg := Function.update s.rg c (s.rg c ++ [position]) }) s)

/-- Loop body of `Step3ScanTier` for one position of the solving tier:
skip illegal and non-canonical positions (counter to 0), write primitives
to the record table with remoteness 0 and push them into the frontier
tagged with the solving tier's own child index, and otherwise store the
canonical-child count into the 8-bit counter (the `int`-to-`unsigned char`
store truncates modulo 256); a non-positive count fails the scan. -/
def step3Body (api : SolverApi) (tier : Int) (childTiers : List Int)
    (acc : SolveState × Bool) (position : Int) : SolveState × Bool :=
  let s := acc.1
  let ok := acc.2
  let tp : TierPosition := ⟨tier, position⟩
  if api.isLegalPosition tp = false ∨ isCanonicalPosition api tier position = false then
    ({ s with counters := Function.update s.counters position 0 }, ok)
  else
    let value := api.primitive tp
    if value ≠ .undecided then
      let s := { s with record := Function.update s.record position (value, 0) }
      let thisTierIndex := childTiers.length - 1
      let r := checkAndLoadFrontier s thisTierIndex position value 0
      ({ r.1 with counters := Function.update r.1.counters position 0 }, ok && r.2)
    else
      let r := step3_0CountChildren api tier position s
      ({ r.2 with counters := Function.update r.2.counters position (r.1 % 256) },
        ok && decide (0 < r.1))

/-- `Step3ScanTier` (tier_worker.c).  `FrontierAccumulateDividers` is a
no-op in the model because records carry their child index directly. -/
def step3ScanTier (api : SolverApi) (tier : Int) (tierSize : Nat)
    (childTiers : List Int) (s : SolveState) : SolveState × Bool :=
  (positionsOfSize tierSize).foldl (step3Body api tier childTiers) (s, true)

/-- The parent lookup used during frontier propagation: the game's
`GetCanonicalParentPositions` if implemented, otherwise
`TierGetCanonicalParentPositionsFromReverseGraph`, which pops the child's
parent bag ("Modelled from the spec": `PopParentsOf` returns and removes
the bag; the `parent_tier` argument is ignored). -/
def getParentsOf (api : SolverApi) (tier : Int) (tp : TierPosition)
    (s : SolveState) : List Int × SolveState :=
  match api.getCanonicalParentPositions with
  | some f => (f tp tier, s)
  | none => (s.rg tp, { s with rg := Function.update s.rg tp [] })

/-- `DecrementIfNonZero` (tier_worker.c): decrement the 8-bit counter if and
only if it is greater than zero, returning (new value, original value).
Sequentially the CAS loop succeeds on its first exchange; the
`_OPENMP`-off branch of `ProcessWinPosition` has the same semantics. -/
def decrementIfNonZero (c : Nat) : Nat × Nat :=
  if c = 0 then (0, 0) else (c - 1, c)

/-- Body of the parent loop of `ProcessWinPosition` for one parent `p`:
decrement `num_undecided_children[p]` if non-zero; if the original value
was 1, this win child was `p`'s last undecided child, so write
`(lose, remoteness+1)` and push `p` into the lose frontier tagged with the
solving tier's own child index. -/
def winParentStep (childTiers : List Int) (remoteness : Nat)
    (s : SolveState) (p : Int) : SolveState :=
  let dr := decrementIfNonZero (s.counters p)
  let s := { s with counters := Function.update s.counters p dr.1 }
  if dr.2 = 1 then
    let thisTierIndex := childTiers.length - 1
    { s with
      record := Function.update s.record p (Value.lose, remoteness + 1)
      loseF := frontierAdd s.loseF p (remoteness + 1) thisTierIndex }
  else s

/-- `ProcessWinPosition` (tier_worker.c). -/
def processWinPosition (api : SolverApi) (tier : Int)
    (childTiers : List Int) (remoteness : Nat) (tp : TierPosition)
    (s : SolveState) : SolveState :=
  let ps := getParentsOf api tier tp s
  ps.1.foldl (winParentStep childTiers remoteness) ps.2

/-- Body of the parent loop of `ProcessLoseOrTiePosition` for one parent `p`:
exchange `num_undecided_children[p]` with 0; if the original value was
non-zero, the parent is newly decided: write win (lose child) or tie (tie
child) in `remoteness+1` and push it into the matching frontier tagged
with the solving tier's own child index. -/
def loseTieParentStep (childTiers : List Int) (processingLose : Bool)
    (remoteness : Nat) (s : SolveState) (p : Int) : SolveState :=
  let childRemaining := s.counters p
  let s := { s with counters := Function.update s.counters p 0 }
  if childRemaining = 0 then s
  else
    let value := if processingLose then Value.win else Value.tie
    let thisTierIndex := childTiers.length - 1
    let s := { s with record := Function.update s.record p (value, remoteness + 1) }
    if processingLose then
      { s with winF := frontierAdd s.winF p (remoteness + 1) thisTierIndex }
    else
      { s with tieF := frontierAdd s.tieF p (remoteness + 1) thisTierIndex }

/-- `ProcessLoseOrTiePosition` (tier_worker.c). -/
def processLoseOrTiePosition (api : SolverApi) (tier : Int)
    (childTiers : List Int) (remoteness : Nat) (tp : TierPosition)
    (processingLose : Bool) (s : SolveState) : SolveState :=
  let ps := getParentsOf api tier tp s
  ps.1.foldl (loseTieParentStep childTiers processingLose remoteness) ps.2

/-- `ProcessLosePosition` (tier_worker.c). -/
def processLosePosition (api : SolverApi) (tier : Int)
    (childTiers : List Int) (remoteness : Nat) (tp : TierPosition)
    (s : SolveState) : SolveState :=
  processLoseOrTiePosition api tier childTiers remoteness tp true s

/-- `ProcessTiePosition` (tier_worker.c). -/
def processTiePosition (api : SolverApi) (tier : Int)
    (childTiers : List Int) (remoteness : Nat) (tp : TierPosition)
    (s : SolveState) : SolveState :=
  processLoseOrTiePosition api tier childTiers remoteness tp false s

/-- The three frontiers, named. -/
inductive FKind where
  | lose
  | win
  | tie
  deriving DecidableEq, Repr

/-- Selects a frontier of the state by kind. -/
def frontierBucket (k : FKind) (s : SolveState) : Frontier :=
  match k with
  | .lose => s.loseF
  | .win => s.winF
  | .tie => s.tieF

/-- `FrontierFreeRemoteness` on the processed frontier: release the bucket of
the remoteness level that has just been fully processed ("Modelled from
the spec"). -/
def clearFrontierBucket (k : FKind) (remoteness : Nat) (s : SolveState) : SolveState :=
  match k with
  | .lose => { s with loseF := Function.update s.loseF remoteness [] }
  | .win => { s with winF := Function.update s.winF remoteness [] }
  | .tie => { s with tieF := Function.update s.tieF remoteness [] }

/-- One record of `PushFrontierHelper`'s iteration space: recover the record's
originating tier from its child index via `child_tiers` (the source
recovers the index from the frontier dividers) and hand the tier position
to the `ProcessPosition` callback of the frontier's kind. -/
def processFrontierRecord (api : SolverApi) (tier : Int)
    (childTiers : List Int) (k : FKind) (remoteness : Nat)
    (s : SolveState) (record : Int × Nat) : SolveState :=
  let tp : TierPosition := ⟨childTiers.getD record.2 0, record.1⟩
  match k with
  | .lose => processLosePosition api tier childTiers remoteness tp s
  | .win => processWinPosition api tier childTiers remoteness tp s
  | .tie => processTiePosition api tier childTiers remoteness tp s

/-- `PushFrontierHelper` (tier_worker.c): process every record of the given
frontier at the given remoteness (all pushes go to remoteness+1, so the
processed bucket is stable), then free the processed bucket. -/
def pushFrontierHelper (api : SolverApi) (tier : Int)
    (childTiers : List Int) (k : FKind) (remoteness : Nat)
    (s : SolveState) : SolveState :=
  let bucket := frontierBucket k s remoteness
  let s := bucket.foldl (processFrontierRecord api tier childTiers k remoteness) s
  clearFrontierBucket k remoteness s

/-- `Step4PushFrontierUp` (tier_worker.c): remoteness levels 0 to
`kFrontierSize - 1` in ascending order, the lose frontier before the win
frontier at each level; the tie frontiers only after the whole win/lose
pass. -/
def step4PushFrontierUp (api : SolverApi) (tier : Int)
    (childTiers : List Int) (s : SolveState) : SolveState :=
  let s := (List.range kFrontierSize).foldl
    (fun s remoteness =>
      pushFrontierHelper api tier childTiers .win remoteness
        (pushFrontierHelper api tier childTiers .lose remoteness s)) s
  (List.range kFrontierSize).foldl
    (fun s remoteness => pushFrontierHelper api tier childTiers .tie remoteness s) s

/-- Loop body of `Step5MarkDrawPositions` for one position: a position that
still has undecided children is drawing (`DbManagerSetValue` only — its
remoteness is untouched); nothing is written otherwise. -/
def step5Body (s : SolveState) (position : Int) : SolveState :=
  if 0 < s.counters position then
    { s with record := Function.update s.record position (Value.draw, (s.record position).2) }
  else s

/-- `Step5MarkDrawPositions` (tier_worker.c). -/
def step5MarkDrawPositions (tierSize : Nat) (s : SolveState) : SolveState :=
  (positionsOfSize tierSize).foldl step5Body s

/-- Modelled from the spec: `DbManagerFlushSolvingTier` materializes the
solving tier's in-memory table so that subsequent probes of that tier read
the solved records. -/
def flushSolvingTier (db : Db) (tier : Int) (tierSize : Nat)
    (record : Int → Value × Nat) : Db :=
  { db with
    probeValue := fun tp =>
      if tp.tier = tier ∧ 0 ≤ tp.position ∧ tp.position < (tierSize : Int) then
        (record tp.position).1
      else db.probeValue tp
    probeRemoteness := fun tp =>
      if tp.tier = tier ∧ 0 ≤ tp.position ∧ tp.position < (tierSize : Int) then
        ((record tp.position).2 : Int)
      else db.probeRemoteness tp }

/-- `CompareDb` (tier_worker.c): every position whose reference value is
decided must agree with the fresh solve in value and remoteness. -/
def compareDb (db : Db) (tier : Int) (tierSize : Nat) : Bool :=
  (positionsOfSize tierSize).all fun p =>
    let tp : TierPosition := ⟨tier, p⟩
    if db.refValue tp = .undecided then true
    else db.probeValue tp = db.refValue tp && db.probeRemoteness tp = db.refRemoteness tp

/-- `TierWorkerSolve` (tier_worker.c), sequential semantics.  Returns the
return code, the `*solved` output flag, and the database after the call.
An already-solved tier is skipped unless `force`; otherwise the solve
phases run in order, bailing out (leaving the stored database untouched)
when a phase fails. -/
def tierWorkerSolve (api : SolverApi) (db : Db) (tier : Int)
    (force compare : Bool) : ErrorCode × Bool × Db :=
  if force = false ∧ db.tierStatus tier = .solved then (.noError, false, db)
  else
    let childTiers := api.getChildTiers tier ++ [tier]
    let tierSize := api.getTierSize tier
    let r1 := step1LoadChildren api db childTiers initialSolveState
    if r1.2 = false then (.runtimeError, false, db)
    else
      let r3 := step3ScanTier api tier tierSize childTiers r1.1
      if r3.2 = false then (.runtimeError, false, db)
      else
        let s4 := step4PushFrontierUp api tier childTiers r3.1
        let s5 := step5MarkDrawPositions tierSize s4
        let db1 := flushSolvingTier db tier tierSize s5.record
        if compare = true ∧ compareDb db1 tier tierSize = false then
          (.runtimeError, false, db1)
        else (.noError, true, db1)

/-! ## Value-iteration solver (`TierWorkerSolveValueIteration`) -/

/-- The value-iteration solver's only mutable state: the solving tier's
in-memory record table. -/
abbrev VTable := Int → Value × Nat

/-- The scan inside `VIStep1LoadChildren`: while loading each child tier,
record the largest win/lose remoteness and the largest tie remoteness
encountered across all child tiers (both start at 0). -/
def viStep1Scan (api : SolverApi) (db : Db) (childTiers : List Int) : Int × Int :=
  childTiers.foldl
    (fun acc childTier =>
      (positionsOfSize (api.getTierSize childTier)).foldl
        (fun (acc : Int × Int) p =>
          let tp : TierPosition := ⟨childTier, p⟩
          match db.probeValue tp with
          | .win =>
            let r := db.probeRemoteness tp
            (if r > acc.1 then r else acc.1, acc.2)
          | .lose =>
            let r := db.probeRemoteness tp
            (if r > acc.1 then r else acc.1, acc.2)
          | .tie =>
            let r := db.probeRemoteness tp
            (acc.1, if r > acc.2 then r else acc.2)
          | _ => acc)
        acc)
    (0, 0)

/-- `VIStep4ScanTier` (tier_worker.c): temporarily mark illegal and
non-canonical positions as drawing (value only), and write primitives with
remoteness 0. -/
def viStep4ScanTier (api : SolverApi) (tier : Int) (tierSize : Nat)
    (t : VTable) : VTable :=
  (positionsOfSize tierSize).foldl
    (fun t pos =>
      let tp : TierPosition := ⟨tier, pos⟩
      if api.isLegalPosition tp = false ∨ isCanonicalPosition api tier pos = false then
        Function.update t pos (Value.draw, (t pos).2)
      else
        let value := api.primitive tp
        if value ≠ .undecided then Function.update t pos (value, 0) else t)
    t

/-- A child's value and remoteness as read in the iteration steps: from the
solving tier's table if the child is in the solving tier, else from the
loaded child tier (`DbManagerGetValueFromLoaded` /
`DbManagerGetRemotenessFromLoaded`). -/
def viChildRecord (db : Db) (tier : Int) (t : VTable) (c : TierPosition) :
    Value × Int :=
  if c.tier = tier then ((t c.position).1, ((t c.position).2 : Int))
  else (db.probeValue c, db.probeRemoteness c)

/-- The child loop of `IterateWinLoseProcessPosition`: return on the first
losing child at remoteness `iteration - 1` by writing `(win, iteration)`;
track whether all children are winning and the largest winning child
remoteness; undecided and tying children clear the all-winning flag; the
`default` branch of the source's switch leaves drawing children with no
effect on either accumulator.  After the loop, an all-winning position
whose largest child remoteness is `iteration - 1` becomes
`(lose, iteration)`. -/
def iterateWinLoseLoop (db : Db) (tier : Int) (iteration : Nat)
    (pos : Int) (t : VTable) :
    List TierPosition → Bool → Int → VTable × Bool
  | [], allChildrenWinning, largestWin =>
    if allChildrenWinning = true ∧ largestWin + 1 = (iteration : Int) then
      (Function.update t pos (Value.lose, iteration), true)
    else (t, false)
  | c :: rest, allChildrenWinning, largestWin =>
    let cr := viChildRecord db tier t c
    let childRemoteness := cr.2
    match cr.1 with
    | .undecided => iterateWinLoseLoop db tier iteration pos t rest false largestWin
    | .tie => iterateWinLoseLoop db tier iteration pos t rest false largestWin
    | .lose =>
      if childRemoteness = (iteration : Int) - 1 then
        (Function.update t pos (Value.win, iteration), true)
      else iterateWinLoseLoop db tier iteration pos t rest false largestWin
    | .win =>
      iterateWinLoseLoop db tier iteration pos t rest allChildrenWinning
        (if childRemoteness > largestWin then childRemoteness else largestWin)
    | .draw => iterateWinLoseLoop db tier iteration pos t rest allChildrenWinning largestWin

/-- `IterateWinLoseProcessPosition` (tier_worker.c): returns the updated
table and whether the position was updated. -/
def iterateWinLoseProcessPosition (api : SolverApi) (db : Db) (tier : Int)
    (iteration : Nat) (pos : Int) (t : VTable) : VTable × Bool :=
  iterateWinLoseLoop db tier iteration pos t
    (api.getCanonicalChildPositions ⟨tier, pos⟩) true (-1)

/-- Loop body of the win/lose sweep for one position: skip already-decided
positions, otherwise process the position and or-accumulate the `updated`
flag. -/
def viSweepWinLoseBody (api : SolverApi) (db : Db) (tier : Int)
    (iteration : Nat) (acc : VTable × Bool) (pos : Int) : VTable × Bool :=
  if (acc.1 pos).1 ≠ Value.undecided then acc
  else
    let r := iterateWinLoseProcessPosition api db tier iteration pos acc.1
    (r.1, acc.2 || r.2)

/-- One sweep of the win/lose iteration (the parallel for loop inside
`VIStep4_0IterateWinLose`): process every still-undecided position,
or-accumulating the `updated` flag. -/
def viSweepWinLose (api : SolverApi) (db : Db) (tier : Int) (tierSize : Nat)
    (iteration : Nat) (t : VTable) : VTable × Bool :=
  (positionsOfSize tierSize).foldl (viSweepWinLoseBody api db tier iteration)
    (t, false)

/-- The child loop of `IterateTieProcessPosition`: write `(tie, iteration)`
and stop at the first tying child at remoteness `iteration - 1`. -/
def iterateTieLoop (db : Db) (tier : Int) (iteration : Nat)
    (pos : Int) (t : VTable) : List TierPosition → VTable × Bool
  | [] => (t, false)
  | c :: rest =>
    let cr := viChildRecord db tier t c
    if cr.1 = .tie ∧ cr.2 = (iteration : Int) - 1 then
      (Function.update t pos (Value.tie, iteration), true)
    else iterateTieLoop db tier iteration pos t rest

/-- `IterateTieProcessPosition` (tier_worker.c). -/
def iterateTieProcessPosition (api : SolverApi) (db : Db) (tier : Int)
    (iteration : Nat) (pos : Int) (t : VTable) : VTable × Bool :=
  iterateTieLoop db tier iteration pos t (api.getCanonicalChildPositions ⟨tier, pos⟩)

/-- Loop body of the tie sweep for one position. -/
def viSweepTieBody (api : SolverApi) (db : Db) (tier : Int)
    (iteration : Nat) (acc : VTable × Bool) (pos : Int) : VTable × Bool :=
  if (acc.1 pos).1 ≠ Value.undecided then acc
  else
    let r := iterateTieProcessPosition api db tier iteration pos acc.1
    (r.1, acc.2 || r.2)

/-- One sweep of the tie iteration (the parallel for loop inside
`VIStep4_1IterateTie`). -/
def viSweepTie (api : SolverApi) (db : Db) (tier : Int) (tierSize : Nat)
    (iteration : Nat) (t : VTable) : VTable × Bool :=
  (positionsOfSize tierSize).foldl (viSweepTieBody api db tier iteration)
    (t, false)

/-- The iteration driver shared by `VIStep4_0IterateWinLose` and
`VIStep4_1IterateTie`: `for (int i = 1; updated || i <= bound + 1; ++i)`
run a sweep.  The source's loop terminates because a sweep with no update
leaves the table unchanged and an updating sweep strictly decreases the
number of undecided positions; the model runs it on explicit fuel that
provably dominates that measure (see `viIterateLoop_fuel_irrelevant`). -/
def viIterateLoop (sweep : Nat → VTable → VTable × Bool) (bound : Int) :
    Nat → Nat → Bool → VTable → VTable
  | 0, _, _, t => t
  | fuel + 1, i, updated, t =>
    if updated = true ∨ (i : Int) ≤ bound + 1 then
      let r := sweep i t
      viIterateLoop sweep bound fuel (i + 1) r.2 r.1
    else t

/-- Fuel sufficient for `viIterateLoop` started at `i = 1, updated = false`:
twice the number of positions (each updating sweep decides at least one)
plus the forced iterations up to `bound + 1`, plus slack. -/
def viFuel (tierSize : Nat) (bound : Int) : Nat :=
  2 * tierSize + (bound + 1).toNat + 2

/-- `VIStep4_0IterateWinLose` (tier_worker.c). -/
def viStep4_0IterateWinLose (api : SolverApi) (db : Db) (tier : Int)
    (tierSize : Nat) (bound : Int) (t : VTable) : VTable :=
  viIterateLoop (viSweepWinLose api db tier tierSize) bound
    (viFuel tierSize bound) 1 false t

/-- `VIStep4_1IterateTie` (tier_worker.c). -/
def viStep4_1IterateTie (api : SolverApi) (db : Db) (tier : Int)
    (tierSize : Nat) (bound : Int) (t : VTable) : VTable :=
  viIterateLoop (viSweepTie api db tier tierSize) bound
    (viFuel tierSize bound) 1 false t

/-- `VIStep5MarkDrawPositions` (tier_worker.c): positions still undecided
after the iterations become draws; positions transiently marked drawing in
the scan are reset to undecided (value writes only). -/
def viStep5MarkDrawPositions (tierSize : Nat) (t : VTable) : VTable :=
  (positionsOfSize tierSize).foldl
    (fun t pos =>
      let val := (t pos).1
      if val = .undecided then Function.update t pos (Value.draw, (t pos).2)
      else if val = .draw then Function.update t pos (Value.undecided, (t pos).2)
      else t)
    t

/-- `TierWorkerSolveValueIteration` (tier_worker.c), sequential semantics.
Same interface as `tierWorkerSolve`.  `VIStep0Initialize` does not append
the solving tier to `child_tiers`. -/
def tierWorkerSolveValueIteration (api : SolverApi) (db : Db) (tier : Int)
    (force compare : Bool) : ErrorCode × Bool × Db :=
  if force = false ∧ db.tierStatus tier = .solved then (.noError, false, db)
  else
    let childTiers := api.getChildTiers tier
    let tierSize := api.getTierSize tier
    let bounds := viStep1Scan api db childTiers
    let t0 : VTable := fun _ => (Value.undecided, 0)
    let t1 := viStep4ScanTier api tier tierSize t0
    let t2 := viStep4_0IterateWinLose api db tier tierSize bounds.1 t1
    let t3 := viStep4_1IterateTie api db tier tierSize bounds.2 t2
    let t4 := viStep5MarkDrawPositions tierSize t3
    let db1 := flushSolvingTier db tier tierSize t4
    if compare = true ∧ compareDb db1 tier tierSize = false then
      (.runtimeError, false, db1)
    else (.noError, true, db1)

/-! ## The tester (`TierWorkerTest`) -/

/-- The error kinds of `TierSolverTestErrors` surfaced by the functions of
the worker module. -/
inductive TestError where
  | noError
  | illegalChildError
  | tierSymmetrySelfMappingError
  | tierSymmetryInconsistentError
  | childParentMismatchError
  | parentChildMismatchError
  deriving DecidableEq, Repr

/-- `kTestSizeMax` (TierWorkerTest). -/
def kTestSizeMax : Nat := 1000

/-- `TestShouldSkip` (tier_worker.c): illegal and primitive positions are
skipped by the tester. -/
def testShouldSkip (api : SolverApi) (tier : Int) (position : Int) : Bool :=
  let tp : TierPosition := ⟨tier, position⟩
  if api.isLegalPosition tp = false then true
  else if api.primitive tp ≠ .undecided then true
  else false

/-- `TestTierSymmetryRemoval` (tier_worker.c): the self-mapping test on the
position and its image in the canonical tier; then, only when the two
tiers differ, the two-application involution test. -/
def testTierSymmetryRemoval (api : SolverApi) (tier : Int)
    (position : Int) (canonicalTier : Int) : TestError :=
  let self : TierPosition := ⟨tier, position⟩
  let symmPos := api.getPositionInSymmetricTier self canonicalTier
  let symm : TierPosition := ⟨canonicalTier, symmPos⟩
  let selfInSelfTier := api.getPositionInSymmetricTier self tier
  let symmInSymmTier := api.getPositionInSymmetricTier symm canonicalTier
  if selfInSelfTier ≠ position then .tierSymmetrySelfMappingError
  else if symmInSymmTier ≠ symmPos then .tierSymmetrySelfMappingError
  else if tier = canonicalTier then .noError
  else
    let selfInSymmTier := api.getPositionInSymmetricTier self canonicalTier
    let symmInSelfTier := api.getPositionInSymmetricTier symm tier
    let newSelf := api.getPositionInSymmetricTier ⟨canonicalTier, selfInSymmTier⟩ tier
    let newSymm := api.getPositionInSymmetricTier ⟨tier, symmInSelfTier⟩ canonicalTier
    if newSelf ≠ position then .tierSymmetryInconsistentError
    else if newSymm ≠ symmPos then .tierSymmetryInconsistentError
    else .noError

/-- The child loop of `TestChildPositions`: break with an error on the first
out-of-range or illegal child. -/
def testChildLoop (api : SolverApi) : List TierPosition → TestError
  | [] => .noError
  | child :: rest =>
    if child.position < 0 then .illegalChildError
    else if (api.getTierSize child.tier : Int) ≤ child.position then .illegalChildError
    else if api.isLegalPosition child = false then .illegalChildError
    else testChildLoop api rest

/-- `TestChildPositions` (tier_worker.c). -/
def testChildPositions (api : SolverApi) (tier : Int) (position : Int) :
    TestError :=
  testChildLoop api (api.getCanonicalChildPositions ⟨tier, position⟩)

/-- The child loop of `TestChildToParentMatching`: every canonical child must
list the canonical form of the position among its parents in this tier. -/
def testChildToParentLoop (api : SolverApi)
    (f : TierPosition → Int → List Int) (tier : Int)
    (canonicalParent : Int) : List TierPosition → TestError
  | [] => .noError
  | child :: rest =>
    if canonicalParent ∈ f child tier then
      testChildToParentLoop api f tier canonicalParent rest
    else .childParentMismatchError

/-- `TestChildToParentMatching` (tier_worker.c). -/
def testChildToParentMatching (api : SolverApi)
    (f : TierPosition → Int → List Int) (tier : Int)
    (position : Int) : TestError :=
  let canonicalParent := api.getCanonicalPosition ⟨tier, position⟩
  testChildToParentLoop api f tier canonicalParent
    (api.getCanonicalChildPositions ⟨tier, position⟩)

/-- The inner loop of `TestParentToChildMatching`: skip illegal and primitive
parents; every remaining parent must list the canonical child among its
canonical children. -/
def testParentLoop (api : SolverApi) (canonicalChild : TierPosition)
    (parentTier : Int) : List Int → TestError
  | [] => .noError
  | q :: rest =>
    let parent : TierPosition := ⟨parentTier, q⟩
    if api.isLegalPosition parent = false then
      testParentLoop api canonicalChild parentTier rest
    else if api.primitive parent ≠ .undecided then
      testParentLoop api canonicalChild parentTier rest
    else if canonicalChild ∈ api.getCanonicalChildPositions parent then
      testParentLoop api canonicalChild parentTier rest
    else .parentChildMismatchError

/-- The outer loop of `TestParentToChildMatching` over the parent tiers. -/
def testParentTierLoop (api : SolverApi)
    (f : TierPosition → Int → List Int)
    (canonicalChild : TierPosition) : List Int → TestError
  | [] => .noError
  | parentTier :: rest =>
    let e := testParentLoop api canonicalChild parentTier (f canonicalChild parentTier)
    if e = .noError then testParentTierLoop api f canonicalChild rest else e

/-- `TestParentToChildMatching` (tier_worker.c). -/
def testParentToChildMatching (api : SolverApi)
    (f : TierPosition → Int → List Int) (tier : Int)
    (position : Int) (parentTiers : List Int) : TestError :=
  testParentTierLoop api f ⟨tier, api.getCanonicalPosition ⟨tier, position⟩⟩ parentTiers

/-- The sampling loop of `TierWorkerTest` over the test indices: compute the
sampled position (PRNG draw modulo the tier size in random mode, the index
itself otherwise), skip illegal/primitive positions, and return the first
failing check; the child/parent reciprocity checks run only when the game
implements `GetCanonicalParentPositions`. -/
def testLoop (api : SolverApi) (rng : Nat → Nat) (tier : Int)
    (parentTiers : List Int) (canonicalTier : Int) (randomTest : Bool)
    (tierSize : Nat) : List Nat → TestError
  | [] => .noError
  | i :: rest =>
    let position : Int := if randomTest then ((rng i % tierSize : Nat) : Int) else (i : Int)
    if testShouldSkip api tier position then
      testLoop api rng tier parentTiers canonicalTier randomTest tierSize rest
    else
      let e1 := testTierSymmetryRemoval api tier position canonicalTier
      if e1 ≠ .noError then e1
      else
        let e2 := testChildPositions api tier position
        if e2 ≠ .noError then e2
        else
          match api.getCanonicalParentPositions with
          | none => testLoop api rng tier parentTiers canonicalTier randomTest tierSize rest
          | some f =>
            let e3 := testChildToParentMatching api f tier position
            if e3 ≠ .noError then e3
            else
              let e4 := testParentToChildMatching api f tier position parentTiers
              if e4 ≠ .noError then e4
              else testLoop api rng tier parentTiers canonicalTier randomTest tierSize rest

/-- `TierWorkerTest` (tier_worker.c).  Modelled from the spec: `rng i` is the
i-th draw of `genrand64_int63()` from the 64-bit Mersenne-Twister stream
initialized with the caller's seed by `init_genrand64` (the mt19937-64
library is external to these sources), so the PRNG appears as an abstract
seed-determined stream. -/
def tierWorkerTest (api : SolverApi) (rng : Nat → Nat) (tier : Int)
    (parentTiers : List Int) : TestError :=
  let tierSize := api.getTierSize tier
  let randomTest : Bool := decide (kTestSizeMax < tierSize)
  let testSize := if randomTest then kTestSizeMax else tierSize
  let canonicalTier := api.getCanonicalTier tier
  testLoop api rng tier parentTiers canonicalTier randomTest tierSize
    (List.range testSize)

/-! ## Declarative forms used to state the claims -/

/-- The positions `TierWorkerTest` examines, stated declaratively: all
positions of the tier in index order when the tier has at most
`kTestSizeMax` positions, else `kTestSizeMax` PRNG draws reduced modulo
the tier size. -/
def testSamples (api : SolverApi) (rng : Nat → Nat) (tier : Int) :
    List Int :=
  let tierSize := api.getTierSize tier
  if kTestSizeMax < tierSize then
    (List.range kTestSizeMax).map (fun i => ((rng i % tierSize : Nat) : Int))
  else (List.range tierSize).map (fun i : Nat => (i : Int))

/-- The first failing check at one sampled position, stated declaratively
(`none` when every applicable check passes). -/
def testPositionFirstError (api : SolverApi) (tier : Int)
    (canonicalTier : Int) (parentTiers : List Int) (position : Int) :
    Option TestError :=
  let checks : List TestError :=
    [testTierSymmetryRemoval api tier position canonicalTier,
     testChildPositions api tier position] ++
    (match api.getCanonicalParentPositions with
     | none => []
     | some f =>
       [testChildToParentMatching api f tier position,
        testParentToChildMatching api f tier position parentTiers])
  checks.find? (fun e => e ≠ .noError)

/-- The result of the tester, stated declaratively: the first failing check
over the sampled positions that are neither illegal nor primitive, or
no-error when every check passes. -/
def firstTestFailure (api : SolverApi) (rng : Nat → Nat) (tier : Int)
    (parentTiers : List Int) : TestError :=
  ((((testSamples api rng tier).filter
      (fun p => testShouldSkip api tier p = false)).filterMap
    (testPositionFirstError api tier (api.getCanonicalTier tier) parentTiers)).head?).getD
    .noError

/-- The order in which `Step4PushFrontierUp` processes (frontier, remoteness)
buckets, written out as a list. -/
def pushSchedule : List (FKind × Nat) :=
  (((List.range kFrontierSize).map
      (fun r => [(FKind.lose, r), (FKind.win, r)])).flatten) ++
    (List.range kFrontierSize).map (fun r => (FKind.tie, r))

/-- Phase of a frontier kind in the push schedule: win/lose first, ties
second. -/
def fkindPhase : FKind → Nat
  | .lose => 0
  | .win => 0
  | .tie => 1

/-- Order of frontier kinds within one remoteness level. -/
def fkindIdx : FKind → Nat
  | .lose => 0
  | .win => 1
  | .tie => 2

/-- The strict processing order of the push schedule: earlier phase first;
within a phase ascending remoteness; within a remoteness level the lose
frontier before the win frontier. -/
def schedOrder (a b : FKind × Nat) : Prop :=
  fkindPhase a.1 < fkindPhase b.1 ∨
    (fkindPhase a.1 = fkindPhase b.1 ∧
      (a.2 < b.2 ∨ (a.2 = b.2 ∧ fkindIdx a.1 < fkindIdx b.1)))

/-! ## General helper lemmas -/

theorem foldl_pres {α β : Type} (f : β → α → β) (P : β → Prop)
    (h : ∀ s a, P s → P (f s a)) :
    ∀ (l : List α) (s : β), P s → P (l.foldl f s) := by
  intro l
  induction l with
  | nil => intro s hs; exact hs
  | cons a rest ih => intro s hs; exact ih (f s a) (h s a hs)

theorem mem_positionsOfSize {n : Nat} {p : Int} :
    p ∈ positionsOfSize n ↔ 0 ≤ p ∧ p < (n : Int) := by
  unfold positionsOfSize
  constructor
  · intro hp
    obtain ⟨m, hm, rfl⟩ := List.mem_map.mp hp
    have := List.mem_range.mp hm
    omega
  · intro ⟨h0, h1⟩
    refine List.mem_map.mpr ⟨p.toNat, List.mem_range.mpr ?_, ?_⟩ <;> omega

theorem nodup_positionsOfSize (n : Nat) : (positionsOfSize n).Nodup := by
  unfold positionsOfSize
  exact (List.nodup_range n).map fun a b h => by omega

/-! ### Per-operation facts about the counter protocol -/

theorem winParentStep_counters (childTiers : List Int) (remoteness : Nat)
    (s : SolveState) (q : Int) :
    (winParentStep childTiers remoteness s q).counters =
      Function.update s.counters q (decrementIfNonZero (s.counters q)).1 := by
  simp only [winParentStep]
  split <;> rfl

theorem winParentStep_record (childTiers : List Int) (remoteness : Nat)
    (s : SolveState) (q : Int) :
    (winParentStep childTiers remoteness s q).record =
      if s.counters q = 1 then
        Function.update s.record q (Value.lose, remoteness + 1)
      else s.record := by
  by_cases h0 : s.counters q = 0
  · simp [winParentStep, decrementIfNonZero, h0]
  · simp only [winParentStep, decrementIfNonZero, if_neg h0]
    split <;> simp_all

theorem winParentStep_loseF (childTiers : List Int) (remoteness : Nat)
    (s : SolveState) (q : Int) :
    (winParentStep childTiers remoteness s q).loseF =
      if s.counters q = 1 then
        frontierAdd s.loseF q (remoteness + 1) (childTiers.length - 1)
      else s.loseF := by
  by_cases h0 : s.counters q = 0
  · simp [winParentStep, decrementIfNonZero, h0]
  · simp only [winParentStep, decrementIfNonZero, if_neg h0]
    split <;> simp_all

theorem winParentStep_others (childTiers : List Int) (remoteness : Nat)
    (s : SolveState) (q : Int) :
    (winParentStep childTiers remoteness s q).winF = s.winF ∧
      (winParentStep childTiers remoteness s q).tieF = s.tieF ∧
      (winParentStep childTiers remoteness s q).rg = s.rg := by
  simp only [winParentStep]
  split <;> exact ⟨rfl, rfl, rfl⟩

theorem winParentStep_counters_le (childTiers : List Int) (remoteness : Nat)
    (s : SolveState) (q p : Int) :
    (winParentStep childTiers remoteness s q).counters p ≤ s.counters p := by
  rw [winParentStep_counters]
  rcases eq_or_ne p q with rfl | hpq
  · rw [Function.update_same]
    unfold decrementIfNonZero
    split <;> omega
  · rw [Function.update_noteq hpq]

theorem loseTieParentStep_counters (childTiers : List Int)
    (processingLose : Bool) (remoteness : Nat) (s : SolveState) (q : Int) :
    (loseTieParentStep childTiers processingLose remoteness s q).counters =
      Function.update s.counters q 0 := by
  simp only [loseTieParentStep]
  split
  · rfl
  · split <;> rfl

theorem loseTieParentStep_record (childTiers : List Int)
    (processingLose : Bool) (remoteness : Nat) (s : SolveState) (q : Int) :
    (loseTieParentStep childTiers processingLose remoteness s q).record =
      if s.counters q = 0 then s.record
      else
        Function.update s.record q
          ((if processingLose then Value.win else Value.tie), remoteness + 1) := by
  simp only [loseTieParentStep]
  split
  · simp_all
  · split <;> simp_all

theorem loseTieParentStep_frontiers (childTiers : List Int)
    (processingLose : Bool) (remoteness : Nat) (s : SolveState) (q : Int) :
    (loseTieParentStep childTiers processingLose remoteness s q).winF =
        (if s.counters q ≠ 0 ∧ processingLose = true then
          frontierAdd s.winF q (remoteness + 1) (childTiers.length - 1)
        else s.winF) ∧
      (loseTieParentStep childTiers processingLose remoteness s q).tieF =
        (if s.counters q ≠ 0 ∧ processingLose = false then
          frontierAdd s.tieF q (remoteness + 1) (childTiers.length - 1)
        else s.tieF) ∧
      (loseTieParentStep childTiers processingLose remoteness s q).loseF = s.loseF ∧
      (loseTieParentStep childTiers processingLose remoteness s q).rg = s.rg := by
  simp only [loseTieParentStep]
  split
  · simp_all
  · split <;> simp_all

theorem loseTieParentStep_counters_le (childTiers : List Int)
    (processingLose : Bool) (remoteness : Nat) (s : SolveState) (q p : Int) :
    (loseTieParentStep childTiers processingLose remoteness s q).counters p ≤ s.counters p := by
  rw [loseTieParentStep_counters]
  rcases eq_or_ne p q with rfl | hpq
  · rw [Function.update_same]; exact Nat.zero_le _
  · rw [Function.update_noteq hpq]

theorem getParentsOf_counters_record (api : SolverApi) (tier : Int)
    (tp : TierPosition) (s : SolveState) :
    (getParentsOf api tier tp s).2.counters = s.counters ∧
      (getParentsOf api tier tp s).2.record = s.record ∧
      (getParentsOf api tier tp s).2.winF = s.winF ∧
      (getParentsOf api tier tp s).2.loseF = s.loseF ∧
      (getParentsOf api tier tp s).2.tieF = s.tieF := by
  unfold getParentsOf
  cases api.getCanonicalParentPositions <;> simp

theorem checkAndLoadFrontier_counters_record (s : SolveState)
    (childIndex : Nat) (position : Int) (value : Value) (remoteness : Int) :
    (checkAndLoadFrontier s childIndex position value remoteness).1.counters = s.counters ∧
      (checkAndLoadFrontier s childIndex position value remoteness).1.record = s.record := by
  unfold checkAndLoadFrontier
  split_ifs <;> cases value <;> simp

theorem foldl_counters_le (step : SolveState → Int → SolveState)
    (hs : ∀ s q p, (step s q).counters p ≤ s.counters p) :
    ∀ (l : List Int) (s : SolveState) (p : Int),
      (l.foldl step s).counters p ≤ s.counters p := by
  intro l
  induction l with
  | nil => intro s p; exact Nat.le_refl _
  | cons a rest ih =>
    intro s p
    exact Nat.le_trans (ih (step s a) p) (hs s a p)

/-- Any state reachable by one record-processing step of `Step4PushFrontierUp`
has pointwise no larger counters. -/
theorem processFrontierRecord_counters_le (api : SolverApi) (tier : Int)
    (childTiers : List Int) (k : FKind) (remoteness : Nat) (s : SolveState)
    (record : Int × Nat) (p : Int) :
    (processFrontierRecord api tier childTiers k remoteness s record).counters p ≤
      s.counters p := by
  have hp := getParentsOf_counters_record api tier
    ⟨childTiers.getD record.2 0, record.1⟩ s
  cases k with
  | lose =>
    show ((getParentsOf api tier _ s).1.foldl
        (loseTieParentStep childTiers true remoteness)
        (getParentsOf api tier _ s).2).counters p ≤ s.counters p
    exact Nat.le_trans
      (foldl_counters_le _ (fun s q p => loseTieParentStep_counters_le _ _ _ s q p) _ _ _)
      (Nat.le_of_eq (congrFun hp.1 p))
  | win =>
    show ((getParentsOf api tier _ s).1.foldl
        (winParentStep childTiers remoteness)
        (getParentsOf api tier _ s).2).counters p ≤ s.counters p
    exact Nat.le_trans
      (foldl_counters_le _ (fun s q p => winParentStep_counters_le _ _ s q p) _ _ _)
      (Nat.le_of_eq (congrFun hp.1 p))
  | tie =>
    show ((getParentsOf api tier _ s).1.foldl
        (loseTieParentStep childTiers false remoteness)
        (getParentsOf api tier _ s).2).counters p ≤ s.counters p
    exact Nat.le_trans
      (foldl_counters_le _ (fun s q p => loseTieParentStep_counters_le _ _ _ s q p) _ _ _)
      (Nat.le_of_eq (congrFun hp.1 p))

theorem pushFrontierHelper_counters_le (api : SolverApi) (tier : Int)
    (childTiers : List Int) (k : FKind) (remoteness : Nat) (s : SolveState)
    (p : Int) :
    (pushFrontierHelper api tier childTiers k remoteness s).counters p ≤
      s.counters p := by
  unfold pushFrontierHelper
  have hclear : ∀ s, (clearFrontierBucket k remoteness s).counters p = s.counters p := by
    intro s; cases k <;> rfl
  rw [hclear]
  generalize frontierBucket k s remoteness = bucket
  induction bucket generalizing s with
  | nil => exact Nat.le_refl _
  | cons a rest ih =>
    exact Nat.le_trans (ih _) (processFrontierRecord_counters_le api tier childTiers k remoteness s a p)

set_option maxRecDepth 8192 in
theorem step4_counters_le (api : SolverApi) (tier : Int)
    (childTiers : List Int) (s : SolveState) (p : Int) :
    (step4PushFrontierUp api tier childTiers s).counters p ≤ s.counters p := by
  unfold step4PushFrontierUp
  have h1 :
      ∀ (l : List Nat) (s : SolveState),
        ((l.foldl (fun s remoteness =>
            pushFrontierHelper api tier childTiers .win remoteness
              (pushFrontierHelper api tier childTiers .lose remoteness s)) s)).counters p ≤
          s.counters p := by
    intro l
    induction l with
    | nil => intro s; exact Nat.le_refl _
    | cons a rest ih =>
      intro s
      refine Nat.le_trans (ih _) ?_
      exact Nat.le_trans (pushFrontierHelper_counters_le api tier childTiers .win a _ p)
        (pushFrontierHelper_counters_le api tier childTiers .lose a s p)
  have h2 :
      ∀ (l : List Nat) (s : SolveState),
        ((l.foldl (fun s remoteness =>
            pushFrontierHelper api tier childTiers .tie remoteness s) s)).counters p ≤
          s.counters p := by
    intro l
    induction l with
    | nil => intro s; exact Nat.le_refl _
    | cons a rest ih =>
      intro s
      exact Nat.le_trans (ih _) (pushFrontierHelper_counters_le api tier childTiers .tie a s p)
  exact Nat.le_trans (h2 _ _) (h1 _ _)

/-! ### Preservation of already-decided positions through Step 4 -/

/-- The invariant tracked through frontier propagation for a position whose
counter is exhausted: its counter stays zero and its record entry is
untouched. -/
def decidedAt (p : Int) (v : Value × Nat) (t : SolveState) : Prop :=
  t.counters p = 0 ∧ t.record p = v

theorem winParentStep_decidedAt (childTiers : List Int) (remoteness : Nat)
    (p : Int) (v : Value × Nat) (s : SolveState) (q : Int)
    (h : decidedAt p v s) : decidedAt p v (winParentStep childTiers remoteness s q) := by
  obtain ⟨hc, hr⟩ := h
  rcases eq_or_ne p q with rfl | hpq
  · constructor
    · rw [winParentStep_counters, Function.update_same, hc]
      rfl
    · rw [winParentStep_record, if_neg (by rw [hc]; exact Nat.zero_ne_one), hr]
  · constructor
    · rw [winParentStep_counters, Function.update_noteq hpq, hc]
    · rw [winParentStep_record]
      split
      · rw [Function.update_noteq hpq, hr]
      · exact hr

theorem loseTieParentStep_decidedAt (childTiers : List Int)
    (processingLose : Bool) (remoteness : Nat) (p : Int) (v : Value × Nat)
    (s : SolveState) (q : Int) (h : decidedAt p v s) :
    decidedAt p v (loseTieParentStep childTiers processingLose remoteness s q) := by
  obtain ⟨hc, hr⟩ := h
  rcases eq_or_ne p q with rfl | hpq
  · constructor
    · rw [loseTieParentStep_counters, Function.update_same]
    · rw [loseTieParentStep_record, if_pos hc, hr]
  · constructor
    · rw [loseTieParentStep_counters, Function.update_noteq hpq, hc]
    · rw [loseTieParentStep_record]
      split
      · exact hr
      · rw [Function.update_noteq hpq, hr]

theorem getParentsOf_decidedAt (api : SolverApi) (tier : Int)
    (tp : TierPosition) (p : Int) (v : Value × Nat) (s : SolveState)
    (h : decidedAt p v s) : decidedAt p v (getParentsOf api tier tp s).2 := by
  have hp := getParentsOf_counters_record api tier tp s
  exact ⟨by rw [congrFun hp.1 p]; exact h.1, by rw [congrFun hp.2.1 p]; exact h.2⟩

theorem processFrontierRecord_decidedAt (api : SolverApi) (tier : Int)
    (childTiers : List Int) (k : FKind) (remoteness : Nat) (p : Int)
    (v : Value × Nat) (s : SolveState) (record : Int × Nat)
    (h : decidedAt p v s) :
    decidedAt p v (processFrontierRecord api tier childTiers k remoteness s record) := by
  have hg := getParentsOf_decidedAt api tier ⟨childTiers.getD record.2 0, record.1⟩ p v s h
  cases k with
  | lose =>
    exact foldl_pres _ (decidedAt p v)
      (fun s q hs => loseTieParentStep_decidedAt childTiers true remoteness p v s q hs)
      _ _ hg
  | win =>
    exact foldl_pres _ (decidedAt p v)
      (fun s q hs => winParentStep_decidedAt childTiers remoteness p v s q hs)
      _ _ hg
  | tie =>
    exact foldl_pres _ (decidedAt p v)
      (fun s q hs => loseTieParentStep_decidedAt childTiers false remoteness p v s q hs)
      _ _ hg

theorem clearFrontierBucket_decidedAt (k : FKind) (remoteness : Nat) (p : Int)
    (v : Value × Nat) (s : SolveState) (h : decidedAt p v s) :
    decidedAt p v (clearFrontierBucket k remoteness s) := by
  cases k <;> exact h

theorem pushFrontierHelper_decidedAt (api : SolverApi) (tier : Int)
    (childTiers : List Int) (k : FKind) (remoteness : Nat) (p : Int)
    (v : Value × Nat) (s : SolveState) (h : decidedAt p v s) :
    decidedAt p v (pushFrontierHelper api tier childTiers k remoteness s) := by
  unfold pushFrontierHelper
  refine clearFrontierBucket_decidedAt k remoteness p v _ ?_
  exact foldl_pres _ (decidedAt p v)
    (fun s r hs => processFrontierRecord_decidedAt api tier childTiers k remoteness p v s r hs)
    _ _ h

set_option maxRecDepth 8192 in
theorem step4_decidedAt (api : SolverApi) (tier : Int) (childTiers : List Int)
    (p : Int) (v : Value × Nat) (s : SolveState) (h : decidedAt p v s) :
    decidedAt p v (step4PushFrontierUp api tier childTiers s) := by
  unfold step4PushFrontierUp
  refine foldl_pres _ (decidedAt p v) (fun s r hs => ?_) _ _
    (foldl_pres _ (decidedAt p v) (fun s r hs => ?_) _ _ h)
  · exact pushFrontierHelper_decidedAt api tier childTiers .tie r p v s hs
  · exact pushFrontierHelper_decidedAt api tier childTiers .win r p v _
      (pushFrontierHelper_decidedAt api tier childTiers .lose r p v s hs)

/-! ### Characterization of Step 5 -/

theorem step5Body_counters (s : SolveState) (q : Int) :
    (step5Body s q).counters = s.counters := by
  unfold step5Body
  split <;> rfl

theorem step5_fold_counters (l : List Int) (s : SolveState) :
    (l.foldl step5Body s).counters = s.counters := by
  induction l generalizing s with
  | nil => rfl
  | cons a rest ih => rw [List.foldl_cons, ih, step5Body_counters]

theorem step5_fold_record_notmem (l : List Int) (p : Int) (hp : p ∉ l)
    (s : SolveState) : (l.foldl step5Body s).record p = s.record p := by
  induction l generalizing s with
  | nil => rfl
  | cons a rest ih =>
    rw [List.foldl_cons, ih (fun hmem => hp (List.mem_cons_of_mem a hmem))]
    unfold step5Body
    split
    · exact Function.update_noteq
        (fun he => hp (by rw [he]; exact List.mem_cons_self a rest)) _ _
    · rfl

theorem step5_fold_record_mem (l : List Int) (p : Int) (hn : l.Nodup)
    (hp : p ∈ l) (s : SolveState) :
    (l.foldl step5Body s).record p =
      if 0 < s.counters p then (Value.draw, (s.record p).2) else s.record p := by
  induction l generalizing s with
  | nil => exact absurd hp (List.not_mem_nil p)
  | cons a rest ih =>
    rw [List.foldl_cons]
    rcases List.mem_cons.mp hp with rfl | hmem
    · rw [step5_fold_record_notmem rest p (List.Nodup.not_mem hn) _]
      unfold step5Body
      split
      · exact Function.update_same _ _ _
      · rfl
    · rw [ih (List.Nodup.of_cons hn) hmem]
      have hpa : p ≠ a := fun he => (List.Nodup.not_mem hn) (by rw [← he]; exact hmem)
      have hrec : (step5Body s a).record p = s.record p := by
        unfold step5Body
        split
        · exact Function.update_noteq hpa _ _
        · rfl
      rw [step5Body_counters, hrec]

/-! ### Concrete instances used by witnesses and counterexamples -/

/-- A minimal game: one tier of one position, legal, canonical, primitive
win, no children, no parents, and a game-supplied parent function. -/
def apiW : SolverApi :=
  { getTierSize := fun _ => 1
    isLegalPosition := fun _ => true
    primitive := fun _ => Value.win
    getCanonicalPosition := fun tp => tp.position
    getNumberOfCanonicalChildPositions := fun _ => 0
    getCanonicalChildPositions := fun _ => []
    getCanonicalParentPositions := some (fun _ _ => [])
    getPositionInSymmetricTier := fun tp _ => tp.position
    getChildTiers := fun _ => []
    getCanonicalTier := fun t => t }

/-- An empty database: nothing solved, all probes undecided. -/
def dbW : Db :=
  { tierStatus := fun _ => DbTierStatus.missing
    probeValue := fun _ => Value.undecided
    probeRemoteness := fun _ => 0
    refValue := fun _ => Value.undecided
    refRemoteness := fun _ => 0 }

/-- The database of an already-solved tier. -/
def dbSolved : Db :=
  { dbW with tierStatus := fun _ => DbTierStatus.solved }

/-- A solver state in which every counter is 1. -/
def stateOne : SolveState :=
  { initialSolveState with counters := fun _ => 1 }

/-! ## Claim C4 -/

/-- Claim C4: for every record processed from the win-frontier at remoteness
`r`, and each canonical parent `p` of that record within the solving tier,
`undecided_children[p]` is decremented only if it is non-zero (a zero
counter leaves counter, record table and lose frontier untouched; a
non-zero counter becomes its predecessor), and `p` is written
`(lose, r+1)` and pushed into the lose frontier at remoteness `r+1` tagged
with the solving tier's own child index exactly when the pre-decrement
counter value was 1 (any other pre-decrement value leaves the record
table and lose frontier untouched); `ProcessWinPosition` is exactly the
fold of this per-parent step over the record's canonical parents. -/
theorem c4_win_frontier_counter_protocol (childTiers : List Int)
    (remoteness : Nat) (s : SolveState) (p : Int) :
    ((winParentStep childTiers remoteness s p).counters p =
        (decrementIfNonZero (s.counters p)).1) ∧
    (s.counters p = 0 →
      (winParentStep childTiers remoteness s p).counters p = 0 ∧
      (winParentStep childTiers remoteness s p).record = s.record ∧
      (winParentStep childTiers remoteness s p).loseF = s.loseF) ∧
    (s.counters p ≠ 0 →
      (winParentStep childTiers remoteness s p).counters p = s.counters p - 1) ∧
    (s.counters p = 1 →
      (winParentStep childTiers remoteness s p).record p =
          (Value.lose, remoteness + 1) ∧
      (winParentStep childTiers remoteness s p).loseF (remoteness + 1) =
        s.loseF (remoteness + 1) ++ [(p, childTiers.length - 1)]) ∧
    (s.counters p ≠ 1 →
      (winParentStep childTiers remoteness s p).record = s.record ∧
      (winParentStep childTiers remoteness s p).loseF = s.loseF) ∧
    (∀ (api : SolverApi) (tier : Int) (tp : TierPosition) (s0 : SolveState),
      processWinPosition api tier childTiers remoteness tp s0 =
        (getParentsOf api tier tp s0).1.foldl (winParentStep childTiers remoteness)
          (getParentsOf api tier tp s0).2) := by
  refine ⟨?_, ?_, ?_, ?_, ?_, fun _ _ _ _ => rfl⟩
  · rw [winParentStep_counters, Function.update_same]
  · intro h0
    refine ⟨?_, ?_, ?_⟩
    · rw [winParentStep_counters, Function.update_same, h0]
      rfl
    · rw [winParentStep_record, if_neg (by rw [h0]; exact Nat.zero_ne_one)]
    · rw [winParentStep_loseF, if_neg (by rw [h0]; exact Nat.zero_ne_one)]
  · intro h0
    rw [winParentStep_counters, Function.update_same]
    unfold decrementIfNonZero
    rw [if_neg h0]
  · intro h1
    constructor
    · rw [winParentStep_record, if_pos h1, Function.update_same]
    · rw [winParentStep_loseF, if_pos h1]
      unfold frontierAdd
      rw [Function.update_same]
  · intro h1
    exact ⟨by rw [winParentStep_record, if_neg h1],
      by rw [winParentStep_loseF, if_neg h1]⟩

/-- Witness for C4 at a concrete state with counter 1. -/
theorem c4_win_frontier_counter_protocol_witness :
    (winParentStep [(0 : Int)] 0 stateOne 0).record 0 = (Value.lose, 1) ∧
    (winParentStep [(0 : Int)] 0 stateOne 0).loseF 1 = [((0 : Int), 0)] ∧
    (winParentStep [(0 : Int)] 0 stateOne 0).counters 0 = 0 := by
  have h := c4_win_frontier_counter_protocol [(0 : Int)] 0 stateOne 0
  obtain ⟨h1, h2, h3, h4, h5, h6⟩ := h
  have hc : stateOne.counters 0 = 1 := rfl
  refine ⟨(h4 hc).1, ?_, ?_⟩
  · have := (h4 hc).2
    simpa [stateOne, initialSolveState] using this
  · have := h3 (by rw [hc]; exact Nat.one_ne_zero)
    rw [this, hc]

/-! ## Claim C5 -/

/-- Claim C5: throughout `Step4PushFrontierUp`, every counter
`undecided_children[p]` is non-increasing, and once a counter is zero it
remains zero; moreover the lose/tie path only exchanges the touched
counter to 0, and the win path decrements exactly the counters that are
currently non-zero and leaves zero counters at zero. -/
theorem c5_step4_counter_monotone (api : SolverApi) (tier : Int)
    (childTiers : List Int) (s : SolveState) (p : Int) :
    ((step4PushFrontierUp api tier childTiers s).counters p ≤ s.counters p) ∧
    (s.counters p = 0 →
      (step4PushFrontierUp api tier childTiers s).counters p = 0) ∧
    (∀ (processingLose : Bool) (r : Nat) (s' : SolveState) (q : Int),
      (loseTieParentStep childTiers processingLose r s' q).counters q = 0) ∧
    (∀ (r : Nat) (s' : SolveState) (q : Int),
      s'.counters q ≠ 0 →
        (winParentStep childTiers r s' q).counters q = s'.counters q - 1) ∧
    (∀ (r : Nat) (s' : SolveState) (q : Int),
      s'.counters q = 0 → (winParentStep childTiers r s' q).counters q = 0) := by
  refine ⟨step4_counters_le api tier childTiers s p, ?_, ?_, ?_, ?_⟩
  · intro h0
    have := step4_counters_le api tier childTiers s p
    omega
  · intro pl r s' q
    rw [loseTieParentStep_counters, Function.update_same]
  · intro r s' q h0
    rw [winParentStep_counters, Function.update_same]
    unfold decrementIfNonZero
    rw [if_neg h0]
  · intro r s' q h0
    rw [winParentStep_counters, Function.update_same, h0]
    rfl

/-- Witness for C5 at a concrete state. -/
theorem c5_step4_counter_monotone_witness :
    (step4PushFrontierUp apiW 0 [(0 : Int)] initialSolveState).counters 0 = 0 ∧
    (loseTieParentStep [(0 : Int)] true 0 stateOne 0).counters 0 = 0 := by
  have h := c5_step4_counter_monotone apiW 0 [(0 : Int)] initialSolveState 0
  exact ⟨h.2.1 rfl, h.2.2.1 true 0 stateOne 0⟩

/-! ## Claim C6 -/

/-- Claim C6: after frontier propagation, the draw-marking phase writes value
`draw` (keeping the stored remoteness field) to every position of the
solving tier whose `undecided_children` counter is positive, writes
nothing for positions whose counter is 0 (their record-table entry is
unchanged), and mutates no counter. -/
theorem c6_step5_draw_marking (tierSize : Nat) (s : SolveState) (p : Int)
    (hp : 0 ≤ p ∧ p < (tierSize : Int)) :
    ((step5MarkDrawPositions tierSize s).record p =
      if 0 < s.counters p then (Value.draw, (s.record p).2) else s.record p) ∧
    (s.counters p = 0 →
      (step5MarkDrawPositions tierSize s).record p = s.record p) ∧
    (∀ q : Int, (step5MarkDrawPositions tierSize s).counters q = s.counters q) := by
  have hmem : p ∈ positionsOfSize tierSize := mem_positionsOfSize.mpr hp
  have h1 := step5_fold_record_mem (positionsOfSize tierSize) p
    (nodup_positionsOfSize tierSize) hmem s
  refine ⟨h1, ?_, ?_⟩
  · intro h0
    rw [show step5MarkDrawPositions tierSize s =
      (positionsOfSize tierSize).foldl step5Body s from rfl, h1, h0]
    rfl
  · intro q
    rw [show step5MarkDrawPositions tierSize s =
      (positionsOfSize tierSize).foldl step5Body s from rfl, step5_fold_counters]

/-- Witness for C6 at a concrete state with counter 1. -/
theorem c6_step5_draw_marking_witness :
    (step5MarkDrawPositions 1 stateOne).record 0 = (Value.draw, 0) ∧
    (step5MarkDrawPositions 1 initialSolveState).record 0 =
      (Value.undecided, 0) := by
  constructor
  · have h := (c6_step5_draw_marking 1 stateOne 0 (by constructor <;> decide)).1
    simpa [stateOne, initialSolveState] using h
  · have h := (c6_step5_draw_marking 1 initialSolveState 0
      (by constructor <;> decide)).2.1 rfl
    simpa [initialSolveState] using h

/-! ## Claim C8 -/

/-- Claim C8: with `force = false` and the database reporting the tier as
solved, both `TierWorkerSolve` and `TierWorkerSolveValueIteration` return
success immediately: no solving phase runs, the stored database is
returned unchanged, and the `*solved` output flag is false. -/
theorem c8_already_solved_noop (api : SolverApi) (db : Db) (tier : Int)
    (compare : Bool) (hstatus : db.tierStatus tier = .solved) :
    tierWorkerSolve api db tier false compare = (.noError, false, db) ∧
    tierWorkerSolveValueIteration api db tier false compare =
      (.noError, false, db) := by
  constructor
  · unfold tierWorkerSolve
    rw [if_pos ⟨rfl, hstatus⟩]
  · unfold tierWorkerSolveValueIteration
    rw [if_pos ⟨rfl, hstatus⟩]

/-- Witness for C8 on a database whose tiers are all solved. -/
theorem c8_already_solved_noop_witness :
    tierWorkerSolve apiW dbSolved 0 false false = (.noError, false, dbSolved) ∧
    tierWorkerSolveValueIteration apiW dbSolved 0 false false =
      (.noError, false, dbSolved) :=
  c8_already_solved_noop apiW dbSolved 0 false rfl

/-! ## Claim C7 -/

theorem step4_eq_schedule_foldl (api : SolverApi) (tier : Int)
    (childTiers : List Int) (s : SolveState) :
    step4PushFrontierUp api tier childTiers s =
      pushSchedule.foldl
        (fun s kr => pushFrontierHelper api tier childTiers kr.1 kr.2 s) s := by
  unfold step4PushFrontierUp pushSchedule
  rw [List.foldl_append, List.foldl_flatten, List.foldl_map, List.foldl_map]
  simp only [List.foldl_cons, List.foldl_nil]

theorem pushSchedule_pairwise : List.Pairwise schedOrder pushSchedule := by
  unfold pushSchedule
  rw [List.pairwise_append]
  refine ⟨?_, ?_, ?_⟩
  · rw [List.pairwise_flatten]
    constructor
    · intro l hl
      obtain ⟨r, hr, rfl⟩ := List.mem_map.mp hl
      refine List.Pairwise.cons ?_ (List.pairwise_singleton _ _)
      intro y hy
      rw [List.mem_singleton.mp hy]
      exact Or.inr ⟨rfl, Or.inr ⟨rfl, Nat.zero_lt_one⟩⟩
    · rw [List.pairwise_map]
      refine List.Pairwise.imp ?_ (List.pairwise_lt_range _)
      intro r r' hrr
      intro x hx y hy
      have hx' : x = (FKind.lose, r) ∨ x = (FKind.win, r) := by simpa using hx
      have hy' : y = (FKind.lose, r') ∨ y = (FKind.win, r') := by simpa using hy
      rcases hx' with rfl | rfl <;> rcases hy' with rfl | rfl <;>
        exact Or.inr ⟨rfl, Or.inl hrr⟩
  · rw [List.pairwise_map]
    refine List.Pairwise.imp ?_ (List.pairwise_lt_range _)
    intro r r' h
    exact Or.inr ⟨rfl, Or.inl h⟩
  · intro a ha b hb
    obtain ⟨l, hl, hal⟩ := List.mem_flatten.mp ha
    obtain ⟨r, hr, rfl⟩ := List.mem_map.mp hl
    obtain ⟨r', hr', rfl⟩ := List.mem_map.mp hb
    have ha' : a = (FKind.lose, r) ∨ a = (FKind.win, r) := by simpa using hal
    rcases ha' with rfl | rfl <;> exact Or.inl Nat.zero_lt_one

theorem pushSchedule_mem (r : Nat) (hr : r < kFrontierSize) :
    (FKind.lose, r) ∈ pushSchedule ∧ (FKind.win, r) ∈ pushSchedule ∧
      (FKind.tie, r) ∈ pushSchedule := by
  unfold pushSchedule
  have hrange : r ∈ List.range kFrontierSize := List.mem_range.mpr hr
  have hpair : [(FKind.lose, r), (FKind.win, r)] ∈
      (List.range kFrontierSize).map (fun r => [(FKind.lose, r), (FKind.win, r)]) :=
    List.mem_map.mpr ⟨r, hrange, rfl⟩
  refine ⟨?_, ?_, ?_⟩
  · exact List.mem_append_left _ (List.mem_flatten.mpr ⟨_, hpair, by simp⟩)
  · exact List.mem_append_left _ (List.mem_flatten.mpr ⟨_, hpair, by simp⟩)
  · exact List.mem_append_right _ (List.mem_map.mpr ⟨r, hrange, rfl⟩)

/-- Claim C7: `Step4PushFrontierUp` is the sequential fold over an explicit
schedule of (frontier, remoteness) buckets; that schedule is strictly
ordered so that the whole win/lose phase precedes the whole tie phase,
remoteness levels within each phase appear in strictly ascending order,
and within one level the lose frontier is processed before the win
frontier; and every remoteness level 0 .. kFrontierSize-1 of every
frontier appears in the schedule. -/
theorem c7_push_frontier_order (api : SolverApi) (tier : Int)
    (childTiers : List Int) (s : SolveState) :
    (step4PushFrontierUp api tier childTiers s =
      pushSchedule.foldl
        (fun s kr => pushFrontierHelper api tier childTiers kr.1 kr.2 s) s) ∧
    List.Pairwise schedOrder pushSchedule ∧
    (∀ r, r < kFrontierSize →
      (FKind.lose, r) ∈ pushSchedule ∧ (FKind.win, r) ∈ pushSchedule ∧
        (FKind.tie, r) ∈ pushSchedule) :=
  ⟨step4_eq_schedule_foldl api tier childTiers s, pushSchedule_pairwise,
    fun r hr => pushSchedule_mem r hr⟩

/-- Witness for C7: the schedule covers remoteness level 5 of each frontier. -/
theorem c7_push_frontier_order_witness :
    (FKind.lose, 5) ∈ pushSchedule ∧ (FKind.win, 5) ∈ pushSchedule ∧
      (FKind.tie, 5) ∈ pushSchedule :=
  (c7_push_frontier_order apiW 0 [] initialSolveState).2.2 5 (by decide)

/-! ## Claim C2 -/

/-- A game with a non-canonical tier 7 whose canonical tier is 5; the
tier-symmetry map into tier 7 shifts positions by 3. -/
def apiC2 : SolverApi :=
  { apiW with
    getCanonicalTier := fun t => if t = 7 then 5 else t
    getPositionInSymmetricTier := fun tp symm =>
      if symm = 7 then tp.position + 3 else tp.position }

/-- A database in which position 0 of tier 5 is stored as a tie at
remoteness 2. -/
def dbC2 : Db :=
  { dbW with
    probeValue := fun tp => if tp = ⟨5, 0⟩ then Value.tie else Value.undecided
    probeRemoteness := fun _ => 2 }

/-- Counterexample to claim C2 as stated: when Phase 1 loads the
non-canonical child tier 7 (canonical tier 5), the canonical position
(5, 0) whose probed value is tie is NOT skipped — it is translated to
position 3 of tier 7 and pushed into the tie frontier at its remoteness,
tagged with the child index; the claim asserts tie positions are pushed
into no frontier. -/
theorem c2_counterexample :
    dbC2.probeValue ⟨5, 0⟩ = Value.tie ∧
    apiC2.getCanonicalTier 7 = 5 ∧ (7 : Int) ≠ 5 ∧
    initialSolveState.tieF 2 = [] ∧
    (step1_1LoadNonCanonicalTier apiC2 dbC2 [7] 0 initialSolveState).1.tieF 2 =
      [((3 : Int), 0)] ∧
    (step1_1LoadNonCanonicalTier apiC2 dbC2 [7] 0 initialSolveState).2 = true := by
  refine ⟨rfl, by decide, by decide, rfl, ?_, rfl⟩
  decide

/-- Claim C2 as amended: when Phase 1 loads a non-canonical child tier `C`,
for every position of `C`'s canonical tier, positions whose probed value
is undecided or draw are skipped (pushed into no frontier, state and
success flag untouched); winning, losing AND tying positions are
translated back into `C` via `GetPositionInSymmetricTier` and pushed into
the frontier of their value at their probed remoteness, tagged with `C`'s
child index (a negative probed remoteness of a pushed value instead fails
the load); and `Step1_1LoadNonCanonicalTier` is exactly the fold of this
per-position step over the canonical tier's positions. -/
theorem c2_nonCanonical_tier_load (api : SolverApi) (db : Db)
    (origTier canonicalTier : Int) (childIndex : Nat) (s : SolveState)
    (ok : Bool) (q : Int) :
    ((db.probeValue ⟨canonicalTier, q⟩ = Value.undecided ∨
        db.probeValue ⟨canonicalTier, q⟩ = Value.draw) →
      loadNonCanonicalPos api db origTier canonicalTier childIndex (s, ok) q =
        (s, ok)) ∧
    (∀ v, db.probeValue ⟨canonicalTier, q⟩ = v →
      0 ≤ db.probeRemoteness ⟨canonicalTier, q⟩ →
      ((v = Value.win →
        loadNonCanonicalPos api db origTier canonicalTier childIndex (s, ok) q =
          ({ s with winF := (frontierAdd s.winF
              (api.getPositionInSymmetricTier ⟨canonicalTier, q⟩ origTier)
              (db.probeRemoteness ⟨canonicalTier, q⟩).toNat childIndex) }, ok)) ∧
      (v = Value.lose →
        loadNonCanonicalPos api db origTier canonicalTier childIndex (s, ok) q =
          ({ s with loseF := (frontierAdd s.loseF
              (api.getPositionInSymmetricTier ⟨canonicalTier, q⟩ origTier)
              (db.probeRemoteness ⟨canonicalTier, q⟩).toNat childIndex) }, ok)) ∧
      (v = Value.tie →
        loadNonCanonicalPos api db origTier canonicalTier childIndex (s, ok) q =
          ({ s with tieF := (frontierAdd s.tieF
              (api.getPositionInSymmetricTier ⟨canonicalTier, q⟩ origTier)
              (db.probeRemoteness ⟨canonicalTier, q⟩).toNat childIndex) }, ok)))) ∧
    (¬(db.probeValue ⟨canonicalTier, q⟩ = Value.undecided ∨
        db.probeValue ⟨canonicalTier, q⟩ = Value.draw) →
      db.probeRemoteness ⟨canonicalTier, q⟩ < 0 →
      loadNonCanonicalPos api db origTier canonicalTier childIndex (s, ok) q =
        (s, false)) ∧
    (step1_1LoadNonCanonicalTier api db (origTier :: []) 0 s =
      (positionsOfSize (api.getTierSize (api.getCanonicalTier origTier))).foldl
        (loadNonCanonicalPos api db origTier (api.getCanonicalTier origTier) 0)
        (s, true)) := by
  refine ⟨?_, ?_, ?_, rfl⟩
  · intro hv
    simp only [loadNonCanonicalPos]
    rw [if_pos hv]
  · rintro v hv hr
    refine ⟨?_, ?_, ?_⟩ <;> rintro rfl <;>
      · simp only [loadNonCanonicalPos, checkAndLoadFrontier, hv]
        rw [if_neg (by rintro (h | h) <;> exact Value.noConfusion h)]
        rw [if_neg (by omega)]
        simp
  · intro hv hr
    simp only [loadNonCanonicalPos, checkAndLoadFrontier]
    rw [if_neg hv, if_pos hr]
    simp

/-- Witness for the amended C2 at the concrete tie position. -/
theorem c2_nonCanonical_tier_load_witness :
    loadNonCanonicalPos apiC2 dbC2 7 5 0 (initialSolveState, true) 0 =
      ({ initialSolveState with
          tieF := frontierAdd initialSolveState.tieF 3 2 0 }, true) := by
  exact ((c2_nonCanonical_tier_load apiC2 dbC2 7 5 0 initialSolveState
      true 0).2.1 Value.tie rfl (by decide)).2.2 rfl

/-! ## Claim C1 — helper lemmas on Step 3 and the solve pipeline -/

theorem rgAddFold_rc (children : List TierPosition) (pos : Int) :
    ∀ s : SolveState,
      ((children.foldl
          (fun s c => { s with rg := Function.update s.rg c (s.rg c ++ [pos]) }) s).record =
        s.record) ∧
      ((children.foldl
          (fun s c => { s with rg := Function.update s.rg c (s.rg c ++ [pos]) }) s).counters =
        s.counters) := by
  induction children with
  | nil => intro s; exact ⟨rfl, rfl⟩
  | cons c rest ih =>
    intro s
    rw [List.foldl_cons]
    exact ⟨(ih _).1, (ih _).2⟩

theorem step3_0CountChildren_rc (api : SolverApi) (tier : Int) (pos : Int)
    (s : SolveState) :
    (step3_0CountChildren api tier pos s).2.record = s.record ∧
      (step3_0CountChildren api tier pos s).2.counters = s.counters := by
  unfold step3_0CountChildren
  cases api.getCanonicalParentPositions with
  | none => exact rgAddFold_rc _ pos s
  | some f => exact ⟨rfl, rfl⟩

/-- One Step-3 iteration only writes the record and counter of its own
position. -/
theorem step3Body_other (api : SolverApi) (tier : Int) (childTiers : List Int)
    (acc : SolveState × Bool) (q p : Int) (hqp : q ≠ p) :
    (step3Body api tier childTiers acc q).1.record p = acc.1.record p ∧
      (step3Body api tier childTiers acc q).1.counters p = acc.1.counters p := by
  have hqp' : p ≠ q := fun h => hqp h.symm
  simp only [step3Body]
  split
  · exact ⟨rfl, Function.update_noteq hqp' _ _⟩
  · split
    · have hc := checkAndLoadFrontier_counters_record
        { acc.1 with record := Function.update acc.1.record q (api.primitive ⟨tier, q⟩, 0) }
        (childTiers.length - 1) q (api.primitive ⟨tier, q⟩) 0
      constructor
      · show (checkAndLoadFrontier _ _ _ _ _).1.record p = acc.1.record p
        rw [hc.2]
        exact Function.update_noteq hqp' _ _
      · show Function.update (checkAndLoadFrontier _ _ _ _ _).1.counters q 0 p =
          acc.1.counters p
        rw [Function.update_noteq hqp', hc.1]
    · have hc := step3_0CountChildren_rc api tier q acc.1
      constructor
      · exact hc.1 ▸ congrFun hc.1 p
      · show Function.update (step3_0CountChildren api tier q acc.1).2.counters q _ p =
          acc.1.counters p
        rw [Function.update_noteq hqp', hc.2]

/-- A skipped (illegal or non-canonical) position keeps its record entry and
gets counter 0. -/
theorem step3Body_self_skip (api : SolverApi) (tier : Int)
    (childTiers : List Int) (acc : SolveState × Bool) (p : Int)
    (hcond : api.isLegalPosition ⟨tier, p⟩ = false ∨
      isCanonicalPosition api tier p = false) :
    (step3Body api tier childTiers acc p).1.record p = acc.1.record p ∧
      (step3Body api tier childTiers acc p).1.counters p = 0 := by
  simp only [step3Body]
  rw [if_pos hcond]
  exact ⟨rfl, Function.update_same _ _ _⟩

/-- A legal canonical primitive position gets its primitive value at
remoteness 0 and counter 0. -/
theorem step3Body_self_primitive (api : SolverApi) (tier : Int)
    (childTiers : List Int) (acc : SolveState × Bool) (p : Int)
    (hleg : api.isLegalPosition ⟨tier, p⟩ = true)
    (hcanon : isCanonicalPosition api tier p = true)
    (hprim : api.primitive ⟨tier, p⟩ ≠ .undecided) :
    (step3Body api tier childTiers acc p).1.record p =
        (api.primitive ⟨tier, p⟩, 0) ∧
      (step3Body api tier childTiers acc p).1.counters p = 0 := by
  simp only [step3Body]
  rw [if_neg (by rintro (h | h) <;> simp_all), if_pos hprim]
  have hc := checkAndLoadFrontier_counters_record
    { acc.1 with record := Function.update acc.1.record p (api.primitive ⟨tier, p⟩, 0) }
    (childTiers.length - 1) p (api.primitive ⟨tier, p⟩) 0
  constructor
  · show (checkAndLoadFrontier _ _ _ _ _).1.record p = _
    rw [hc.2]
    exact Function.update_same _ _ _
  · exact Function.update_same _ _ _

theorem step3_fold_notmem (api : SolverApi) (tier : Int) (childTiers : List Int)
    (l : List Int) (p : Int) (hp : p ∉ l) :
    ∀ acc : SolveState × Bool,
      (l.foldl (step3Body api tier childTiers) acc).1.record p = acc.1.record p ∧
      (l.foldl (step3Body api tier childTiers) acc).1.counters p = acc.1.counters p := by
  induction l with
  | nil => intro acc; exact ⟨rfl, rfl⟩
  | cons a rest ih =>
    intro acc
    rw [List.foldl_cons]
    have hrest := ih (fun h => hp (List.mem_cons_of_mem a h)) (step3Body api tier childTiers acc a)
    have hown := step3Body_other api tier childTiers acc a p
      (fun h => hp (by rw [← h]; exact List.mem_cons_self a rest))
    exact ⟨hrest.1.trans hown.1, hrest.2.trans hown.2⟩

theorem step3_fold_primitive (api : SolverApi) (tier : Int)
    (childTiers : List Int) (l : List Int) (p : Int) (hn : l.Nodup) (hp : p ∈ l)
    (hleg : api.isLegalPosition ⟨tier, p⟩ = true)
    (hcanon : isCanonicalPosition api tier p = true)
    (hprim : api.primitive ⟨tier, p⟩ ≠ .undecided) :
    ∀ acc : SolveState × Bool,
      (l.foldl (step3Body api tier childTiers) acc).1.record p =
          (api.primitive ⟨tier, p⟩, 0) ∧
      (l.foldl (step3Body api tier childTiers) acc).1.counters p = 0 := by
  induction l with
  | nil => exact absurd hp (List.not_mem_nil p)
  | cons a rest ih =>
    intro acc
    rw [List.foldl_cons]
    rcases List.mem_cons.mp hp with rfl | hmem
    · have hrest := step3_fold_notmem api tier childTiers rest p
        (List.Nodup.not_mem hn) (step3Body api tier childTiers acc p)
      have hself := step3Body_self_primitive api tier childTiers acc p hleg hcanon hprim
      exact ⟨hrest.1.trans hself.1, hrest.2.trans hself.2⟩
    · exact ih (List.Nodup.of_cons hn) hmem _

theorem step3_fold_skip (api : SolverApi) (tier : Int)
    (childTiers : List Int) (l : List Int) (p : Int) (hn : l.Nodup) (hp : p ∈ l)
    (hcond : api.isLegalPosition ⟨tier, p⟩ = false ∨
      isCanonicalPosition api tier p = false) :
    ∀ acc : SolveState × Bool,
      (l.foldl (step3Body api tier childTiers) acc).1.record p = acc.1.record p ∧
      (l.foldl (step3Body api tier childTiers) acc).1.counters p = 0 := by
  induction l with
  | nil => exact absurd hp (List.not_mem_nil p)
  | cons a rest ih =>
    intro acc
    rw [List.foldl_cons]
    rcases List.mem_cons.mp hp with rfl | hmem
    · have hrest := step3_fold_notmem api tier childTiers rest p
        (List.Nodup.not_mem hn) (step3Body api tier childTiers acc p)
      have hself := step3Body_self_skip api tier childTiers acc p hcond
      exact ⟨hrest.1.trans hself.1, hrest.2.trans hself.2⟩
    · have hown := step3Body_other api tier childTiers acc a p
        (fun h => (List.Nodup.not_mem hn) (by rw [← h] at hmem; exact hmem))
      have := ih (List.Nodup.of_cons hn) hmem (step3Body api tier childTiers acc a)
      exact ⟨this.1.trans hown.1, this.2⟩

theorem flush_probe_at (db : Db) (tier : Int) (tierSize : Nat)
    (record : Int → Value × Nat) (p : Int) (hp : 0 ≤ p ∧ p < (tierSize : Int)) :
    (flushSolvingTier db tier tierSize record).probeValue ⟨tier, p⟩ =
        (record p).1 ∧
      (flushSolvingTier db tier tierSize record).probeRemoteness ⟨tier, p⟩ =
        ((record p).2 : Int) := by
  unfold flushSolvingTier
  constructor <;> exact if_pos ⟨rfl, hp.1, hp.2⟩

/-- When the loopy solve actually runs (not skipped) and returns success, the
resulting database is the flush of the phase-5 table, and every phase
reported success. -/
theorem tierWorkerSolve_noError_shape (api : SolverApi) (db : Db) (tier : Int)
    (force compare : Bool)
    (hbranch : ¬(force = false ∧ db.tierStatus tier = .solved))
    (hok : (tierWorkerSolve api db tier force compare).1 = .noError) :
    (tierWorkerSolve api db tier force compare).2.2 =
      flushSolvingTier db tier (api.getTierSize tier)
        (step5MarkDrawPositions (api.getTierSize tier)
          (step4PushFrontierUp api tier (api.getChildTiers tier ++ [tier])
            (step3ScanTier api tier (api.getTierSize tier)
              (api.getChildTiers tier ++ [tier])
              (step1LoadChildren api db (api.getChildTiers tier ++ [tier])
                initialSolveState).1).1)).record ∧
    (step1LoadChildren api db (api.getChildTiers tier ++ [tier])
        initialSolveState).2 = true ∧
    (step3ScanTier api tier (api.getTierSize tier)
        (api.getChildTiers tier ++ [tier])
        (step1LoadChildren api db (api.getChildTiers tier ++ [tier])
          initialSolveState).1).2 = true := by
  simp only [tierWorkerSolve] at hok ⊢
  rw [if_neg hbranch] at hok ⊢
  by_cases h1 : (step1LoadChildren api db (api.getChildTiers tier ++ [tier])
      initialSolveState).2 = false
  · rw [if_pos h1] at hok
    exact absurd hok (by simp)
  · rw [if_neg h1] at hok ⊢
    by_cases h3 : (step3ScanTier api tier (api.getTierSize tier)
        (api.getChildTiers tier ++ [tier])
        (step1LoadChildren api db (api.getChildTiers tier ++ [tier])
          initialSolveState).1).2 = false
    · rw [if_pos h3] at hok
      exact absurd hok (by simp)
    · rw [if_neg h3] at hok ⊢
      split at hok
      · exact absurd hok (by simp)
      · refine ⟨by split <;> rfl, ?_, ?_⟩ <;> simp_all

/-! ## Claim C1 — helper lemmas on the value-iteration pipeline -/

theorem vtable_fold_notmem (f : VTable → Int → VTable) (p : Int)
    (hother : ∀ t q, q ≠ p → (f t q) p = t p) :
    ∀ (l : List Int), p ∉ l → ∀ t, (l.foldl f t) p = t p := by
  intro l
  induction l with
  | nil => intro _ t; rfl
  | cons a rest ih =>
    intro hp t
    rw [List.foldl_cons, ih (fun h => hp (List.mem_cons_of_mem a h)),
      hother t a (fun h => hp (by rw [← h]; exact List.mem_cons_self a rest))]

theorem vtable_fold_at (f : VTable → Int → VTable) (p : Int)
    (g : Value × Nat → Value × Nat)
    (hother : ∀ t q, q ≠ p → (f t q) p = t p)
    (hself : ∀ t, (f t p) p = g (t p)) :
    ∀ (l : List Int), l.Nodup → p ∈ l → ∀ t, (l.foldl f t) p = g (t p) := by
  intro l
  induction l with
  | nil => intro _ hp; exact absurd hp (List.not_mem_nil p)
  | cons a rest ih =>
    intro hn hp t
    rw [List.foldl_cons]
    rcases List.mem_cons.mp hp with rfl | hmem
    · rw [vtable_fold_notmem f p hother rest (List.Nodup.not_mem hn), hself]
    · rw [ih (List.Nodup.of_cons hn) hmem,
        hother t a (fun h => (List.Nodup.not_mem hn) (by rw [← h] at hmem; exact hmem))]

/-- The per-position function of `VIStep4ScanTier`'s loop. -/
def viScanBody (api : SolverApi) (tier : Int) (t : VTable) (pos : Int) : VTable :=
  let tp : TierPosition := ⟨tier, pos⟩
  if api.isLegalPosition tp = false ∨ isCanonicalPosition api tier pos = false then
    Function.update t pos (Value.draw, (t pos).2)
  else
    let value := api.primitive tp
    if value ≠ .undecided then Function.update t pos (value, 0) else t

theorem viStep4ScanTier_eq (api : SolverApi) (tier : Int) (tierSize : Nat)
    (t : VTable) :
    viStep4ScanTier api tier tierSize t =
      (positionsOfSize tierSize).foldl (viScanBody api tier) t := rfl

theorem viScanBody_other (api : SolverApi) (tier : Int) (t : VTable)
    (q p : Int) (hqp : q ≠ p) : (viScanBody api tier t q) p = t p := by
  have hqp' : p ≠ q := fun h => hqp h.symm
  simp only [viScanBody]
  split
  · exact Function.update_noteq hqp' _ _
  · split
    · exact Function.update_noteq hqp' _ _
    · rfl

theorem viScanBody_self_primitive (api : SolverApi) (tier : Int) (t : VTable)
    (p : Int) (hleg : api.isLegalPosition ⟨tier, p⟩ = true)
    (hcanon : isCanonicalPosition api tier p = true)
    (hprim : api.primitive ⟨tier, p⟩ ≠ .undecided) :
    (viScanBody api tier t p) p = (api.primitive ⟨tier, p⟩, 0) := by
  simp only [viScanBody]
  rw [if_neg (by rintro (h | h) <;> simp_all), if_pos hprim]
  exact Function.update_same _ _ _

/-- The win/lose child loop either leaves the table alone or writes the
processed position. -/
theorem iterateWinLoseLoop_shape (db : Db) (tier : Int) (iteration : Nat)
    (pos : Int) (t : VTable) :
    ∀ (children : List TierPosition) (aw : Bool) (lw : Int),
      (iterateWinLoseLoop db tier iteration pos t children aw lw).1 = t ∨
      ∃ v, (iterateWinLoseLoop db tier iteration pos t children aw lw).1 =
        Function.update t pos v := by
  intro children
  induction children with
  | nil =>
    intro aw lw
    simp only [iterateWinLoseLoop]
    split
    · exact Or.inr ⟨_, rfl⟩
    · exact Or.inl rfl
  | cons c rest ih =>
    intro aw lw
    simp only [iterateWinLoseLoop]
    split
    · exact ih _ _
    · exact ih _ _
    · split
      · exact Or.inr ⟨_, rfl⟩
      · exact ih _ _
    · exact ih _ _
    · exact ih _ _

/-- The tie child loop either leaves the table alone or writes the processed
position. -/
theorem iterateTieLoop_shape (db : Db) (tier : Int) (iteration : Nat)
    (pos : Int) (t : VTable) :
    ∀ (children : List TierPosition),
      (iterateTieLoop db tier iteration pos t children).1 = t ∨
      ∃ v, (iterateTieLoop db tier iteration pos t children).1 =
        Function.update t pos v := by
  intro children
  induction children with
  | nil => exact Or.inl rfl
  | cons c rest ih =>
    simp only [iterateTieLoop]
    split
    · exact Or.inr ⟨_, rfl⟩
    · exact ih

/-- A sweep of either iteration never touches a decided position. -/
theorem viSweepWinLose_preserves (api : SolverApi) (db : Db) (tier : Int)
    (tierSize : Nat) (iteration : Nat) (q : Int) (w : Value × Nat)
    (hw : w.1 ≠ .undecided) (t : VTable) (ht : t q = w) :
    (viSweepWinLose api db tier tierSize iteration t).1 q = w := by
  unfold viSweepWinLose
  refine foldl_pres _ (fun acc : VTable × Bool => acc.1 q = w) ?_ _ (t, false) ht
  intro acc pos hacc
  unfold viSweepWinLoseBody
  split
  · exact hacc
  · rename_i hundec
    have hpos : pos ≠ q := by
      intro h
      rw [h, hacc] at hundec
      exact hundec hw
    show (iterateWinLoseProcessPosition api db tier iteration pos acc.1).1 q = w
    unfold iterateWinLoseProcessPosition
    rcases iterateWinLoseLoop_shape db tier iteration pos acc.1
        (api.getCanonicalChildPositions ⟨tier, pos⟩) true (-1) with h | ⟨v, h⟩
    · rw [h]; exact hacc
    · rw [h, Function.update_noteq (fun hh => hpos hh.symm), hacc]

theorem viSweepTie_preserves (api : SolverApi) (db : Db) (tier : Int)
    (tierSize : Nat) (iteration : Nat) (q : Int) (w : Value × Nat)
    (hw : w.1 ≠ .undecided) (t : VTable) (ht : t q = w) :
    (viSweepTie api db tier tierSize iteration t).1 q = w := by
  unfold viSweepTie
  refine foldl_pres _ (fun acc : VTable × Bool => acc.1 q = w) ?_ _ (t, false) ht
  intro acc pos hacc
  unfold viSweepTieBody
  split
  · exact hacc
  · rename_i hundec
    have hpos : pos ≠ q := by
      intro h
      rw [h, hacc] at hundec
      exact hundec hw
    show (iterateTieProcessPosition api db tier iteration pos acc.1).1 q = w
    unfold iterateTieProcessPosition
    rcases iterateTieLoop_shape db tier iteration pos acc.1
        (api.getCanonicalChildPositions ⟨tier, pos⟩) with h | ⟨v, h⟩
    · rw [h]; exact hacc
    · rw [h, Function.update_noteq (fun hh => hpos hh.symm), hacc]

theorem viIterateLoop_preserves (sweep : Nat → VTable → VTable × Bool)
    (bound : Int) (q : Int) (w : Value × Nat)
    (hsweep : ∀ i t, t q = w → (sweep i t).1 q = w) :
    ∀ (fuel i : Nat) (u : Bool) (t : VTable), t q = w →
      (viIterateLoop sweep bound fuel i u t) q = w := by
  intro fuel
  induction fuel with
  | zero => intro i u t ht; exact ht
  | succ n ih =>
    intro i u t ht
    simp only [viIterateLoop]
    split
    · exact ih _ _ _ (hsweep i t ht)
    · exact ht

theorem viStep5_at (tierSize : Nat) (t : VTable) (p : Int)
    (hp : 0 ≤ p ∧ p < (tierSize : Int)) :
    (viStep5MarkDrawPositions tierSize t) p =
      if (t p).1 = .undecided then (Value.draw, (t p).2)
      else if (t p).1 = .draw then (Value.undecided, (t p).2)
      else t p := by
  have hother : ∀ (t : VTable) (q : Int), q ≠ p →
      ((fun t pos =>
        if (t pos).1 = Value.undecided then Function.update t pos (Value.draw, (t pos).2)
        else if (t pos).1 = Value.draw then Function.update t pos (Value.undecided, (t pos).2)
        else t) t q) p = t p := by
    intro t q hqp
    have hqp' : p ≠ q := fun h => hqp h.symm
    dsimp only
    split
    · exact Function.update_noteq hqp' _ _
    · split
      · exact Function.update_noteq hqp' _ _
      · rfl
  have hself : ∀ t : VTable,
      ((fun t pos =>
        if (t pos).1 = Value.undecided then Function.update t pos (Value.draw, (t pos).2)
        else if (t pos).1 = Value.draw then Function.update t pos (Value.undecided, (t pos).2)
        else t) t p) p =
      (if (t p).1 = .undecided then (Value.draw, (t p).2)
       else if (t p).1 = .draw then (Value.undecided, (t p).2)
       else t p) := by
    intro t
    dsimp only
    split
    · exact Function.update_same _ _ _
    · split
      · exact Function.update_same _ _ _
      · rfl
  exact vtable_fold_at _ p
    (fun v => if v.1 = Value.undecided then (Value.draw, v.2)
      else if v.1 = Value.draw then (Value.undecided, v.2) else v)
    hother hself (positionsOfSize tierSize)
    (nodup_positionsOfSize tierSize) (mem_positionsOfSize.mpr hp) t

/-- When the value-iteration solve actually runs, the resulting database is
the flush of the phase-5 table (whether or not compare mode failed). -/
theorem viSolve_shape (api : SolverApi) (db : Db) (tier : Int)
    (force compare : Bool)
    (hbranch : ¬(force = false ∧ db.tierStatus tier = .solved)) :
    (tierWorkerSolveValueIteration api db tier force compare).2.2 =
      flushSolvingTier db tier (api.getTierSize tier)
        (viStep5MarkDrawPositions (api.getTierSize tier)
          (viStep4_1IterateTie api db tier (api.getTierSize tier)
            (viStep1Scan api db (api.getChildTiers tier)).2
            (viStep4_0IterateWinLose api db tier (api.getTierSize tier)
              (viStep1Scan api db (api.getChildTiers tier)).1
              (viStep4ScanTier api tier (api.getTierSize tier)
                (fun _ => (Value.undecided, 0)))))) := by
  simp only [tierWorkerSolveValueIteration]
  rw [if_neg hbranch]
  split <;> rfl

/-! ## Claim C1 -/

/-- A game with one tier of two positions in which position 0 is legal and
primitive-win but NOT canonical (its canonical position is 1); position 1
is legal, canonical and primitive-win. -/
def apiA : SolverApi :=
  { apiW with
    getTierSize := fun _ => 2
    getCanonicalPosition := fun tp => if tp.position = 0 then 1 else tp.position }

/-- A game whose single position is a legal canonical primitive DRAW. -/
def apiB : SolverApi :=
  { apiW with primitive := fun _ => Value.draw }

/-- Counterexample to claim C1 as stated.  (a) Loopy solver: the legal
primitive-win position 0 of `apiA` is skipped by `Step3ScanTier` because
it is not canonical, so after a successful solve its stored value is
undecided, not its primitive value.  (b) Value-iteration solver: the
legal canonical primitive-draw position of `apiB` is written as draw by
`VIStep4ScanTier`, but `VIStep5MarkDrawPositions` inverts every stored
draw to undecided, so after a successful solve its stored value is
undecided, not draw. -/
theorem c1_counterexample :
    (apiA.isLegalPosition ⟨0, 0⟩ = true ∧
     apiA.primitive ⟨0, 0⟩ = Value.win ∧
     (tierWorkerSolve apiA dbW 0 true false).1 = .noError ∧
     (tierWorkerSolve apiA dbW 0 true false).2.2.probeValue ⟨0, 0⟩ =
       Value.undecided ∧
     Value.undecided ≠ Value.win) ∧
    (apiB.isLegalPosition ⟨0, 0⟩ = true ∧
     isCanonicalPosition apiB 0 0 = true ∧
     apiB.primitive ⟨0, 0⟩ = Value.draw ∧
     (tierWorkerSolveValueIteration apiB dbW 0 true false).1 = .noError ∧
     (tierWorkerSolveValueIteration apiB dbW 0 true false).2.2.probeValue ⟨0, 0⟩ =
       Value.undecided ∧
     Value.undecided ≠ Value.draw) := by
  constructor
  · refine ⟨rfl, rfl, by decide, ?_, by decide⟩
    have hbr : ¬(true = false ∧ dbW.tierStatus 0 = .solved) := by simp
    have hshape := tierWorkerSolve_noError_shape apiA dbW 0 true false hbr (by decide)
    rw [hshape.1]
    have hmem : (0 : Int) ∈ positionsOfSize (apiA.getTierSize 0) :=
      mem_positionsOfSize.mpr (by decide)
    have hs3 := step3_fold_skip apiA 0 (apiA.getChildTiers 0 ++ [0])
      (positionsOfSize (apiA.getTierSize 0)) 0
      (nodup_positionsOfSize _) hmem (Or.inr (by decide))
      ((step1LoadChildren apiA dbW (apiA.getChildTiers 0 ++ [0])
        initialSolveState).1, true)
    have hs1 : (step1LoadChildren apiA dbW (apiA.getChildTiers 0 ++ [0])
        initialSolveState).1.record 0 = (Value.undecided, 0) := rfl
    have hdec : decidedAt 0 (Value.undecided, 0)
        (step3ScanTier apiA 0 (apiA.getTierSize 0)
          (apiA.getChildTiers 0 ++ [0])
          (step1LoadChildren apiA dbW (apiA.getChildTiers 0 ++ [0])
            initialSolveState).1).1 :=
      ⟨hs3.2, hs3.1.trans hs1⟩
    have hs4 := step4_decidedAt apiA 0 (apiA.getChildTiers 0 ++ [0]) 0
      (Value.undecided, 0) _ hdec
    have h5 := step5_fold_record_mem (positionsOfSize (apiA.getTierSize 0)) 0
      (nodup_positionsOfSize _) hmem
      (step4PushFrontierUp apiA 0 (apiA.getChildTiers 0 ++ [0])
        (step3ScanTier apiA 0 (apiA.getTierSize 0)
          (apiA.getChildTiers 0 ++ [0])
          (step1LoadChildren apiA dbW (apiA.getChildTiers 0 ++ [0])
            initialSolveState).1).1)
    rw [hs4.1] at h5
    have h5' : (step5MarkDrawPositions (apiA.getTierSize 0)
        (step4PushFrontierUp apiA 0 (apiA.getChildTiers 0 ++ [0])
          (step3ScanTier apiA 0 (apiA.getTierSize 0)
            (apiA.getChildTiers 0 ++ [0])
            (step1LoadChildren apiA dbW (apiA.getChildTiers 0 ++ [0])
              initialSolveState).1).1)).record 0 = (Value.undecided, 0) := by
      rw [show step5MarkDrawPositions (apiA.getTierSize 0) _ =
        (positionsOfSize (apiA.getTierSize 0)).foldl step5Body _ from rfl, h5]
      rw [if_neg (by omega), hs4.2]
    rw [(flush_probe_at dbW 0 (apiA.getTierSize 0) _ 0 (by decide)).1, h5']
  · exact ⟨rfl, by decide, rfl, by decide, by decide, by decide⟩

/-- Claim C1 as amended: for every legal CANONICAL tier position `tp` of the
solving tier whose primitive value is not undecided, after a successful
run of the loopy `TierWorkerSolve` the stored value is `Primitive(tp)`
and the stored remoteness is 0 (including primitive draws); after a
successful run of `TierWorkerSolveValueIteration` the same holds provided
`Primitive(tp)` is not draw (the VI solver's final draw/undecided
inversion maps primitive draws to undecided, and non-canonical legal
positions are skipped by both solvers). -/
theorem c1_primitive_preservation (api : SolverApi) (db : Db) (tier : Int)
    (force compare : Bool) (p : Int)
    (hbranch : ¬(force = false ∧ db.tierStatus tier = .solved))
    (hp : 0 ≤ p ∧ p < (api.getTierSize tier : Int))
    (hleg : api.isLegalPosition ⟨tier, p⟩ = true)
    (hcanon : isCanonicalPosition api tier p = true)
    (hprim : api.primitive ⟨tier, p⟩ ≠ .undecided) :
    ((tierWorkerSolve api db tier force compare).1 = .noError →
      (tierWorkerSolve api db tier force compare).2.2.probeValue ⟨tier, p⟩ =
        api.primitive ⟨tier, p⟩ ∧
      (tierWorkerSolve api db tier force compare).2.2.probeRemoteness ⟨tier, p⟩ =
        0) ∧
    (api.primitive ⟨tier, p⟩ ≠ .draw →
      (tierWorkerSolveValueIteration api db tier force compare).1 = .noError →
      (tierWorkerSolveValueIteration api db tier force compare).2.2.probeValue
          ⟨tier, p⟩ = api.primitive ⟨tier, p⟩ ∧
      (tierWorkerSolveValueIteration api db tier force compare).2.2.probeRemoteness
          ⟨tier, p⟩ = 0) := by
  have hmem : p ∈ positionsOfSize (api.getTierSize tier) :=
    mem_positionsOfSize.mpr hp
  constructor
  · intro hok
    have hshape := tierWorkerSolve_noError_shape api db tier force compare hbranch hok
    rw [hshape.1]
    have hs3 := step3_fold_primitive api tier (api.getChildTiers tier ++ [tier])
      (positionsOfSize (api.getTierSize tier)) p
      (nodup_positionsOfSize _) hmem hleg hcanon hprim
      ((step1LoadChildren api db (api.getChildTiers tier ++ [tier])
        initialSolveState).1, true)
    have hdec : decidedAt p (api.primitive ⟨tier, p⟩, 0)
        (step3ScanTier api tier (api.getTierSize tier)
          (api.getChildTiers tier ++ [tier])
          (step1LoadChildren api db (api.getChildTiers tier ++ [tier])
            initialSolveState).1).1 :=
      ⟨hs3.2, hs3.1⟩
    have hs4 := step4_decidedAt api tier (api.getChildTiers tier ++ [tier]) p
      (api.primitive ⟨tier, p⟩, 0) _ hdec
    have h5 := step5_fold_record_mem (positionsOfSize (api.getTierSize tier)) p
      (nodup_positionsOfSize _) hmem
      (step4PushFrontierUp api tier (api.getChildTiers tier ++ [tier])
        (step3ScanTier api tier (api.getTierSize tier)
          (api.getChildTiers tier ++ [tier])
          (step1LoadChildren api db (api.getChildTiers tier ++ [tier])
            initialSolveState).1).1)
    rw [hs4.1] at h5
    rw [(flush_probe_at db tier (api.getTierSize tier) _ p hp).1,
      (flush_probe_at db tier (api.getTierSize tier) _ p hp).2]
    have h5' : (step5MarkDrawPositions (api.getTierSize tier)
        (step4PushFrontierUp api tier (api.getChildTiers tier ++ [tier])
          (step3ScanTier api tier (api.getTierSize tier)
            (api.getChildTiers tier ++ [tier])
            (step1LoadChildren api db (api.getChildTiers tier ++ [tier])
              initialSolveState).1).1)).record p =
        (api.primitive ⟨tier, p⟩, 0) := by
      rw [show step5MarkDrawPositions (api.getTierSize tier) _ =
        (positionsOfSize (api.getTierSize tier)).foldl step5Body _ from rfl, h5]
      rw [if_neg (by omega), hs4.2]
    rw [h5']
    exact ⟨rfl, rfl⟩
  · intro hdrw hok
    rw [viSolve_shape api db tier force compare hbranch]
    have h1 : (viStep4ScanTier api tier (api.getTierSize tier)
        (fun _ => (Value.undecided, 0))) p = (api.primitive ⟨tier, p⟩, 0) := by
      rw [viStep4ScanTier_eq]
      exact vtable_fold_at _ p (fun _ => (api.primitive ⟨tier, p⟩, 0))
        (fun t q h => viScanBody_other api tier t q p h)
        (fun t => viScanBody_self_primitive api tier t p hleg hcanon hprim)
        _ (nodup_positionsOfSize _) hmem _
    have hw1 : ((api.primitive ⟨tier, p⟩, 0) : Value × Nat).1 ≠ .undecided := hprim
    have h2 : (viStep4_0IterateWinLose api db tier (api.getTierSize tier)
        (viStep1Scan api db (api.getChildTiers tier)).1
        (viStep4ScanTier api tier (api.getTierSize tier)
          (fun _ => (Value.undecided, 0)))) p = (api.primitive ⟨tier, p⟩, 0) :=
      viIterateLoop_preserves _ _ p (api.primitive ⟨tier, p⟩, 0)
        (fun i t ht => viSweepWinLose_preserves api db tier
          (api.getTierSize tier) i p _ hw1 t ht) _ _ _ _ h1
    have h3 : (viStep4_1IterateTie api db tier (api.getTierSize tier)
        (viStep1Scan api db (api.getChildTiers tier)).2
        (viStep4_0IterateWinLose api db tier (api.getTierSize tier)
          (viStep1Scan api db (api.getChildTiers tier)).1
          (viStep4ScanTier api tier (api.getTierSize tier)
            (fun _ => (Value.undecided, 0))))) p =
        (api.primitive ⟨tier, p⟩, 0) :=
      viIterateLoop_preserves _ _ p (api.primitive ⟨tier, p⟩, 0)
        (fun i t ht => viSweepTie_preserves api db tier
          (api.getTierSize tier) i p _ hw1 t ht) _ _ _ _ h2
    have h4 : (viStep5MarkDrawPositions (api.getTierSize tier)
        (viStep4_1IterateTie api db tier (api.getTierSize tier)
          (viStep1Scan api db (api.getChildTiers tier)).2
          (viStep4_0IterateWinLose api db tier (api.getTierSize tier)
            (viStep1Scan api db (api.getChildTiers tier)).1
            (viStep4ScanTier api tier (api.getTierSize tier)
              (fun _ => (Value.undecided, 0)))))) p =
        (api.primitive ⟨tier, p⟩, 0) := by
      rw [viStep5_at _ _ p hp, h3]
      rw [if_neg hprim, if_neg hdrw]
    rw [(flush_probe_at db tier (api.getTierSize tier) _ p hp).1,
      (flush_probe_at db tier (api.getTierSize tier) _ p hp).2, h4]
    exact ⟨rfl, rfl⟩

/-- Witness for the amended C1 on the one-position primitive-win game. -/
theorem c1_primitive_preservation_witness :
    (tierWorkerSolve apiW dbW 0 true false).2.2.probeValue ⟨0, 0⟩ =
      Value.win ∧
    (tierWorkerSolveValueIteration apiW dbW 0 true false).2.2.probeValue
      ⟨0, 0⟩ = Value.win := by
  have h := c1_primitive_preservation apiW dbW 0 true false 0 (by simp)
    (by decide) rfl (by decide) (by decide)
  exact ⟨(h.1 (by decide)).1, (h.2 (by decide) (by decide)).1⟩

/-! ## Claim C3 -/

/-- A loop-free game: tier 0 has one legal canonical non-primitive position
whose two canonical children live in the solved child tier 1: child (1,0)
and child (1,1). -/
def apiC3 : SolverApi :=
  { apiW with
    getTierSize := fun t => if t = 0 then 1 else 2
    primitive := fun _ => Value.undecided
    getCanonicalChildPositions := fun tp =>
      if tp.tier = 0 then [⟨1, 0⟩, ⟨1, 1⟩] else []
    getNumberOfCanonicalChildPositions := fun tp => if tp.tier = 0 then 2 else 0
    getCanonicalParentPositions :=
      some (fun child _ => if child.tier = 1 then [0] else [])
    getChildTiers := fun t => if t = 0 then [1] else [] }

/-- The solved child tier 1: position (1,0) is stored as a DRAW and position
(1,1) as a win at remoteness 0. -/
def dbC3 : Db :=
  { dbW with
    probeValue := fun tp =>
      if tp = ⟨1, 0⟩ then Value.draw
      else if tp = ⟨1, 1⟩ then Value.win
      else Value.undecided
    probeRemoteness := fun _ => 0 }

/-- Claim C3 is the spec's intent, and the code diverges from it: in
`IterateWinLoseProcessPosition`, the `switch` on a child's value handles
undecided/tie (clearing `all_children_winning`), lose and win, but its
`default` branch silently ignores DRAW children.  At iteration 1, position
(0,0) — whose children are the drawing (1,0) and the winning (1,1) at
remoteness 0 — is therefore assigned `(lose, 1)` even though not every one
of its children has value win; the claim requires it to stay undecided in
that sweep (and eventually become a draw, which is also what the loopy
solver computes for the same game).  After the full value-iteration
solve, the stored value is lose. -/
theorem c3_draw_child_ignored :
    dbC3.probeValue ⟨1, 0⟩ = Value.draw ∧
    (⟨1, 0⟩ : TierPosition) ∈ apiC3.getCanonicalChildPositions ⟨0, 0⟩ ∧
    apiC3.primitive ⟨0, 0⟩ = Value.undecided ∧
    (iterateWinLoseProcessPosition apiC3 dbC3 0 1 0
        (fun _ => (Value.undecided, 0))).1 0 = (Value.lose, 1) ∧
    (iterateWinLoseProcessPosition apiC3 dbC3 0 1 0
        (fun _ => (Value.undecided, 0))).2 = true ∧
    (tierWorkerSolveValueIteration apiC3 dbC3 0 true false).1 = .noError ∧
    (tierWorkerSolveValueIteration apiC3 dbC3 0 true false).2.2.probeValue
      ⟨0, 0⟩ = Value.lose := by
  refine ⟨rfl, by decide, rfl, by decide, by decide, by decide, by decide⟩

/-! ## Claim C9 -/

/-- The first failing check at one position, unfolded into the check order
used by the sampling loop. -/
theorem testPositionFirstError_cases (api : SolverApi) (tier : Int)
    (canonicalTier : Int) (parentTiers : List Int) (position : Int) :
    testPositionFirstError api tier canonicalTier parentTiers position =
      (if testTierSymmetryRemoval api tier position canonicalTier ≠ .noError then
        some (testTierSymmetryRemoval api tier position canonicalTier)
      else if testChildPositions api tier position ≠ .noError then
        some (testChildPositions api tier position)
      else
        match api.getCanonicalParentPositions with
        | none => none
        | some f =>
          if testChildToParentMatching api f tier position ≠ .noError then
            some (testChildToParentMatching api f tier position)
          else if testParentToChildMatching api f tier position parentTiers ≠
              .noError then
            some (testParentToChildMatching api f tier position parentTiers)
          else none) := by
  unfold testPositionFirstError
  cases api.getCanonicalParentPositions with
  | none =>
    simp only [List.cons_append, List.nil_append, List.find?]
    by_cases h1 : testTierSymmetryRemoval api tier position canonicalTier = .noError <;>
      by_cases h2 : testChildPositions api tier position = .noError <;>
      simp [h1, h2]
  | some f =>
    simp only [List.cons_append, List.nil_append, List.find?]
    by_cases h1 : testTierSymmetryRemoval api tier position canonicalTier = .noError <;>
      by_cases h2 : testChildPositions api tier position = .noError <;>
      by_cases h3 : testChildToParentMatching api f tier position = .noError <;>
      by_cases h4 : testParentToChildMatching api f tier position parentTiers = .noError <;>
      simp [h1, h2, h3, h4]

/-- The sampling loop computes the declarative first-failure over the mapped,
skip-filtered positions. -/
theorem testLoop_eq (api : SolverApi) (rng : Nat → Nat) (tier : Int)
    (parentTiers : List Int) (canonicalTier : Int) (randomTest : Bool)
    (tierSize : Nat) :
    ∀ l : List Nat,
      testLoop api rng tier parentTiers canonicalTier randomTest tierSize l =
        (((((l.map (fun i => if randomTest = true then
              ((rng i % tierSize : Nat) : Int) else (i : Int))).filter
            (fun p => testShouldSkip api tier p = false)).filterMap
          (testPositionFirstError api tier canonicalTier parentTiers)).head?).getD
          .noError) := by
  intro l
  induction l with
  | nil => rfl
  | cons i rest ih =>
    simp only [testLoop, List.map_cons, List.filter_cons]
    revert ih
    generalize List.map
      (fun i => if randomTest = true then ((rng i % tierSize : Nat) : Int)
        else (i : Int)) rest = mrest
    generalize (if randomTest = true then ((rng i % tierSize : Nat) : Int)
      else (i : Int)) = p0
    intro ih
    by_cases hskip : testShouldSkip api tier p0 = true
    · rw [if_pos hskip, ih]
      simp [hskip]
    · have hskip' : testShouldSkip api tier p0 = false := by
        revert hskip
        cases testShouldSkip api tier p0 <;> simp
      rw [if_neg hskip]
      by_cases h1 : testTierSymmetryRemoval api tier p0 canonicalTier = .noError
      · by_cases h2 : testChildPositions api tier p0 = .noError
        · cases hopt : api.getCanonicalParentPositions with
          | none =>
            simp [hskip', testPositionFirstError_cases, h1, h2, hopt, ih]
          | some f =>
            by_cases h3 : testChildToParentMatching api f tier p0 = .noError
            · by_cases h4 : testParentToChildMatching api f tier p0 parentTiers =
                  .noError
              · simp [hskip', testPositionFirstError_cases, h1, h2, hopt, h3, h4, ih]
              · simp [hskip', testPositionFirstError_cases, h1, h2, hopt, h3, h4]
            · simp [hskip', testPositionFirstError_cases, h1, h2, hopt, h3]
        · simp [hskip', testPositionFirstError_cases, h1, h2]
      · simp [hskip', testPositionFirstError_cases, h1]

/-- Claim C9: `TierWorkerTest` examines exactly `size(tier)` positions in
index order when `size(tier) ≤ 1000`, and otherwise exactly 1000 positions
drawn from the seeded PRNG stream reduced modulo the tier size; it skips
illegal and primitive positions, and returns the error kind of the first
failing check over the sampled positions, or no-error when every check
passes. -/
theorem c9_tester_first_failure (api : SolverApi) (rng : Nat → Nat)
    (tier : Int) (parentTiers : List Int) :
    tierWorkerTest api rng tier parentTiers =
      firstTestFailure api rng tier parentTiers ∧
    (api.getTierSize tier ≤ kTestSizeMax →
      testSamples api rng tier =
        (List.range (api.getTierSize tier)).map (fun i : Nat => (i : Int))) ∧
    (kTestSizeMax < api.getTierSize tier →
      testSamples api rng tier =
        (List.range kTestSizeMax).map
          (fun i => ((rng i % api.getTierSize tier : Nat) : Int))) := by
  refine ⟨?_, ?_, ?_⟩
  · unfold tierWorkerTest firstTestFailure testSamples
    by_cases h : kTestSizeMax < api.getTierSize tier
    · simp only [h, decide_True, if_true, if_pos h]
      rw [testLoop_eq]
      simp
    · simp only [h, decide_False, if_false, if_neg h]
      rw [testLoop_eq]
      simp
  · intro h
    unfold testSamples
    rw [if_neg (by omega)]
  · intro h
    unfold testSamples
    rw [if_pos h]

/-- Witness for C9 on the one-position game (every check passes). -/
theorem c9_tester_first_failure_witness :
    tierWorkerTest apiW (fun _ => 0) 0 [] =
      firstTestFailure apiW (fun _ => 0) 0 [] ∧
    testSamples apiW (fun _ => 0) 0 = [(0 : Int)] := by
  have h := c9_tester_first_failure apiW (fun _ => 0) 0 []
  refine ⟨h.1, ?_⟩
  rw [h.2.1 (by decide)]
  decide

/-! ## Claim C10 -/

theorem testChildLoop_range (api : SolverApi) :
    ∀ children, testChildLoop api children = .noError ∨
      testChildLoop api children = .illegalChildError := by
  intro children
  induction children with
  | nil => exact Or.inl rfl
  | cons c rest ih =>
    simp only [testChildLoop]
    split_ifs <;> first | exact Or.inr rfl | exact ih

theorem testChildToParentLoop_range (api : SolverApi)
    (f : TierPosition → Int → List Int) (tier : Int) (canonicalParent : Int) :
    ∀ children, testChildToParentLoop api f tier canonicalParent children = .noError ∨
      testChildToParentLoop api f tier canonicalParent children =
        .childParentMismatchError := by
  intro children
  induction children with
  | nil => exact Or.inl rfl
  | cons c rest ih =>
    simp only [testChildToParentLoop]
    split_ifs <;> first | exact Or.inr rfl | exact ih

theorem testParentLoop_range (api : SolverApi) (canonicalChild : TierPosition)
    (parentTier : Int) :
    ∀ parents, testParentLoop api canonicalChild parentTier parents = .noError ∨
      testParentLoop api canonicalChild parentTier parents =
        .parentChildMismatchError := by
  intro parents
  induction parents with
  | nil => exact Or.inl rfl
  | cons q rest ih =>
    simp only [testParentLoop]
    split_ifs <;> first | exact Or.inr rfl | exact ih

theorem testParentTierLoop_range (api : SolverApi)
    (f : TierPosition → Int → List Int) (canonicalChild : TierPosition) :
    ∀ tiers, testParentTierLoop api f canonicalChild tiers = .noError ∨
      testParentTierLoop api f canonicalChild tiers =
        .parentChildMismatchError := by
  intro tiers
  induction tiers with
  | nil => exact Or.inl rfl
  | cons pt rest ih =>
    simp only [testParentTierLoop]
    split_ifs with he
    · exact ih
    · rcases testParentLoop_range api canonicalChild pt
          (f canonicalChild pt) with h | h
      · exact absurd h he
      · exact Or.inr h

/-- On a tier that is its own canonical tier, the tier-symmetry test reduces
to the two self-mapping checks; the involution test is skipped. -/
theorem tsr_self_tier (api : SolverApi) (tier : Int) (pos : Int) :
    testTierSymmetryRemoval api tier pos tier =
      (if api.getPositionInSymmetricTier ⟨tier, pos⟩ tier ≠ pos ∨
          api.getPositionInSymmetricTier
            ⟨tier, api.getPositionInSymmetricTier ⟨tier, pos⟩ tier⟩ tier ≠
            api.getPositionInSymmetricTier ⟨tier, pos⟩ tier then
        TestError.tierSymmetrySelfMappingError
      else TestError.noError) := by
  simp only [testTierSymmetryRemoval]
  by_cases h1 : api.getPositionInSymmetricTier ⟨tier, pos⟩ tier = pos
  · by_cases h2 : api.getPositionInSymmetricTier
        ⟨tier, api.getPositionInSymmetricTier ⟨tier, pos⟩ tier⟩ tier =
        api.getPositionInSymmetricTier ⟨tier, pos⟩ tier
    · rw [if_neg (not_not_intro h1), if_neg (not_not_intro h2), if_pos trivial,
        if_neg (fun hc => hc.elim (fun ha => ha h1) (fun hb => hb h2))]
    · rw [if_neg (not_not_intro h1), if_pos h2, if_pos (Or.inr h2)]
  · rw [if_pos h1, if_pos (Or.inl h1)]

/-- With the tier's canonical tier equal to itself, no position of the
sampling loop can produce the inconsistency error. -/
theorem testLoop_ne_inconsistent (api : SolverApi) (rng : Nat → Nat)
    (tier : Int) (parentTiers : List Int) (randomTest : Bool) (tierSize : Nat) :
    ∀ l, testLoop api rng tier parentTiers tier randomTest tierSize l ≠
      .tierSymmetryInconsistentError := by
  intro l
  induction l with
  | nil => simp [testLoop]
  | cons i rest ih =>
    simp only [testLoop]
    generalize (if randomTest = true then ((rng i % tierSize : Nat) : Int)
      else (i : Int)) = p0
    by_cases hskip : testShouldSkip api tier p0 = true
    · rw [if_pos hskip]
      exact ih
    · rw [if_neg hskip]
      by_cases h1 : testTierSymmetryRemoval api tier p0 tier = .noError
      · rw [if_neg (not_not_intro h1)]
        by_cases h2 : testChildPositions api tier p0 = .noError
        · rw [if_neg (not_not_intro h2)]
          cases hopt : api.getCanonicalParentPositions with
          | none => exact ih
          | some f =>
            dsimp only
            by_cases h3 : testChildToParentMatching api f tier p0 = .noError
            · rw [if_neg (not_not_intro h3)]
              by_cases h4 : testParentToChildMatching api f tier p0 parentTiers =
                  .noError
              · rw [if_neg (not_not_intro h4)]
                exact ih
              · rw [if_pos h4]
                rcases testParentTierLoop_range api f
                    ⟨tier, api.getCanonicalPosition ⟨tier, p0⟩⟩ parentTiers with
                  h | h <;> simp [testParentToChildMatching, h]
            · rw [if_pos h3]
              rcases testChildToParentLoop_range api f tier
                  (api.getCanonicalPosition ⟨tier, p0⟩)
                  (api.getCanonicalChildPositions ⟨tier, p0⟩) with h | h <;>
                simp [testChildToParentMatching, h]
        · rw [if_pos h2]
          rcases testChildLoop_range api
              (api.getCanonicalChildPositions ⟨tier, p0⟩) with h | h <;>
            simp [testChildPositions, h]
      · rw [if_pos h1]
        rw [tsr_self_tier]
        split <;> simp

/-- Claim C10: for every tier that is its own canonical tier, the
tier-symmetry check performs only the self-mapping tests (skipping the
two-application involution test), it can only report the self-mapping
error, and consequently `TierWorkerTest` never returns the
tier-symmetry-inconsistency error for such a tier. -/
theorem c10_canonical_tier_no_inconsistency (api : SolverApi)
    (rng : Nat → Nat) (tier : Int) (parentTiers : List Int) (pos : Int)
    (h : api.getCanonicalTier tier = tier) :
    (testTierSymmetryRemoval api tier pos (api.getCanonicalTier tier) =
      (if api.getPositionInSymmetricTier ⟨tier, pos⟩ tier ≠ pos ∨
          api.getPositionInSymmetricTier
            ⟨tier, api.getPositionInSymmetricTier ⟨tier, pos⟩ tier⟩ tier ≠
            api.getPositionInSymmetricTier ⟨tier, pos⟩ tier then
        TestError.tierSymmetrySelfMappingError
      else TestError.noError)) ∧
    testTierSymmetryRemoval api tier pos (api.getCanonicalTier tier) ≠
      .tierSymmetryInconsistentError ∧
    tierWorkerTest api rng tier parentTiers ≠
      .tierSymmetryInconsistentError := by
  rw [h]
  refine ⟨tsr_self_tier api tier pos, ?_, ?_⟩
  · rw [tsr_self_tier]
    split <;> simp
  · unfold tierWorkerTest
    rw [h]
    exact testLoop_ne_inconsistent api rng tier parentTiers _ _ _

/-- Witness for C10 on the one-position game with identity tier symmetry. -/
theorem c10_canonical_tier_no_inconsistency_witness :
    tierWorkerTest apiW (fun _ => 0) 0 [] ≠
      TestError.tierSymmetryInconsistentError :=
  (c10_canonical_tier_no_inconsistency apiW (fun _ => 0) 0 [] 0 rfl).2.2

/-! ## Termination of the value-iteration driver

The C loop `for (i = 1; updated || i <= bound + 1; ++i)` terminates because
a sweep that reports no update leaves the table unchanged, and an updating
sweep strictly decreases the number of undecided positions.  The following
development proves that the explicit fuel `viFuel` used by the model
dominates that measure, so the fueled loop computes the same result as the
unbounded C loop: adding any extra fuel does not change the result. -/

/-- Number of positions of the solving tier that are still undecided. -/
def undecidedCount (tierSize : Nat) (t : VTable) : Nat :=
  (positionsOfSize tierSize).countP (fun p => decide ((t p).1 = Value.undecided))

theorem countP_update_notmem (l : List Int) (pos : Int) (hpos : pos ∉ l)
    (t : VTable) (v : Value × Nat) :
    l.countP (fun p => decide (((Function.update t pos v) p).1 = Value.undecided)) =
      l.countP (fun p => decide ((t p).1 = Value.undecided)) := by
  induction l with
  | nil => rfl
  | cons a rest ih =>
    rw [List.countP_cons, List.countP_cons,
      ih (fun h => hpos (List.mem_cons_of_mem a h))]
    have ha : a ≠ pos := fun h => hpos (by rw [h]; exact List.mem_cons_self pos rest)
    rw [Function.update_noteq ha]

theorem countP_update_lt (l : List Int) (hn : l.Nodup) (pos : Int)
    (hpos : pos ∈ l) (t : VTable) (v : Value × Nat)
    (ht : (t pos).1 = Value.undecided) (hv : v.1 ≠ Value.undecided) :
    l.countP (fun p => decide (((Function.update t pos v) p).1 = Value.undecided)) <
      l.countP (fun p => decide ((t p).1 = Value.undecided)) := by
  induction l with
  | nil => exact absurd hpos (List.not_mem_nil pos)
  | cons a rest ih =>
    rw [List.countP_cons, List.countP_cons]
    rcases List.mem_cons.mp hpos with rfl | hmem
    · rw [countP_update_notmem rest pos (List.Nodup.not_mem hn) t v]
      have h1 : (decide (((Function.update t pos v) pos).1 = Value.undecided)) = false := by
        rw [Function.update_same]
        simpa using hv
      have h2 : (decide ((t pos).1 = Value.undecided)) = true := by simpa using ht
      rw [h1, h2]
      simp
    · have ha : a ≠ pos := fun h =>
        (List.Nodup.not_mem hn) (by rw [← h] at hmem; exact hmem)
      rw [Function.update_noteq ha]
      have := ih (List.Nodup.of_cons hn) hmem
      omega

/-- Full characterization of the win/lose child loop's two outcomes: no
update leaves the table untouched; an update writes a decided value at the
processed position. -/
theorem iterateWinLoseLoop_updated (db : Db) (tier : Int) (iteration : Nat)
    (pos : Int) (t : VTable) :
    ∀ (children : List TierPosition) (aw : Bool) (lw : Int),
      ((iterateWinLoseLoop db tier iteration pos t children aw lw).2 = false →
        (iterateWinLoseLoop db tier iteration pos t children aw lw).1 = t) ∧
      ((iterateWinLoseLoop db tier iteration pos t children aw lw).2 = true →
        ∃ v : Value × Nat,
          (iterateWinLoseLoop db tier iteration pos t children aw lw).1 =
            Function.update t pos v ∧ v.1 ≠ Value.undecided) := by
  intro children
  induction children with
  | nil =>
    intro aw lw
    simp only [iterateWinLoseLoop]
    split
    · exact ⟨fun h => absurd h (by simp), fun _ =>
        ⟨(Value.lose, iteration), rfl, by simp⟩⟩
    · exact ⟨fun _ => rfl, fun h => absurd h (by simp)⟩
  | cons c rest ih =>
    intro aw lw
    simp only [iterateWinLoseLoop]
    split
    · exact ih _ _
    · exact ih _ _
    · split
      · exact ⟨fun h => absurd h (by simp), fun _ =>
          ⟨(Value.win, iteration), rfl, by simp⟩⟩
      · exact ih _ _
    · exact ih _ _
    · exact ih _ _

/-- Full characterization of the tie child loop's two outcomes. -/
theorem iterateTieLoop_updated (db : Db) (tier : Int) (iteration : Nat)
    (pos : Int) (t : VTable) :
    ∀ children : List TierPosition,
      ((iterateTieLoop db tier iteration pos t children).2 = false →
        (iterateTieLoop db tier iteration pos t children).1 = t) ∧
      ((iterateTieLoop db tier iteration pos t children).2 = true →
        ∃ v : Value × Nat,
          (iterateTieLoop db tier iteration pos t children).1 =
            Function.update t pos v ∧ v.1 ≠ Value.undecided) := by
  intro children
  induction children with
  | nil => exact ⟨fun _ => rfl, fun h => absurd h (by simp [iterateTieLoop])⟩
  | cons c rest ih =>
    simp only [iterateTieLoop]
    split
    · exact ⟨fun h => absurd h (by simp), fun _ =>
        ⟨(Value.tie, iteration), rfl, by simp⟩⟩
    · exact ih

/-- Stepping the win/lose sweep body: a false final flag means the step was a
no-op and the incoming flag was false. -/
theorem viSweepWinLoseBody_stay (api : SolverApi) (db : Db) (tier : Int)
    (iteration : Nat) (acc : VTable × Bool) (pos : Int)
    (h : (viSweepWinLoseBody api db tier iteration acc pos).2 = false) :
    (viSweepWinLoseBody api db tier iteration acc pos).1 = acc.1 ∧
      acc.2 = false := by
  revert h
  unfold viSweepWinLoseBody
  split
  · exact fun h => ⟨rfl, h⟩
  · intro h
    have hz : (acc.2 ||
        (iterateWinLoseProcessPosition api db tier iteration pos acc.1).2) = false := h
    have h2 := Bool.or_eq_false_iff.mp hz
    refine ⟨?_, h2.1⟩
    exact (iterateWinLoseLoop_updated db tier iteration pos acc.1 _ _ _).1 h2.2

theorem viSweepTieBody_stay (api : SolverApi) (db : Db) (tier : Int)
    (iteration : Nat) (acc : VTable × Bool) (pos : Int)
    (h : (viSweepTieBody api db tier iteration acc pos).2 = false) :
    (viSweepTieBody api db tier iteration acc pos).1 = acc.1 ∧
      acc.2 = false := by
  revert h
  unfold viSweepTieBody
  split
  · exact fun h => ⟨rfl, h⟩
  · intro h
    have hz : (acc.2 ||
        (iterateTieProcessPosition api db tier iteration pos acc.1).2) = false := h
    have h2 := Bool.or_eq_false_iff.mp hz
    refine ⟨?_, h2.1⟩
    exact (iterateTieLoop_updated db tier iteration pos acc.1 _).1 h2.2

theorem sweep_fold_stay {α : Type} (body : (VTable × Bool) → α → VTable × Bool)
    (hbody : ∀ acc a, (body acc a).2 = false →
      (body acc a).1 = acc.1 ∧ acc.2 = false) :
    ∀ (l : List α) (acc : VTable × Bool), (l.foldl body acc).2 = false →
      (l.foldl body acc).1 = acc.1 ∧ acc.2 = false := by
  intro l
  induction l with
  | nil => intro acc h; exact ⟨rfl, h⟩
  | cons a rest ih =>
    intro acc h
    rw [List.foldl_cons] at h ⊢
    have hrest := ih (body acc a) h
    have hone := hbody acc a hrest.2
    exact ⟨hrest.1.trans hone.1, hone.2⟩

/-- A win/lose sweep that reports no update leaves the table unchanged. -/
theorem viSweepWinLose_stay (api : SolverApi) (db : Db) (tier : Int)
    (tierSize : Nat) (iteration : Nat) (t : VTable)
    (h : (viSweepWinLose api db tier tierSize iteration t).2 = false) :
    (viSweepWinLose api db tier tierSize iteration t).1 = t :=
  (sweep_fold_stay _ (viSweepWinLoseBody_stay api db tier iteration)
    (positionsOfSize tierSize) (t, false) h).1

/-- A tie sweep that reports no update leaves the table unchanged. -/
theorem viSweepTie_stay (api : SolverApi) (db : Db) (tier : Int)
    (tierSize : Nat) (iteration : Nat) (t : VTable)
    (h : (viSweepTie api db tier tierSize iteration t).2 = false) :
    (viSweepTie api db tier tierSize iteration t).1 = t :=
  (sweep_fold_stay _ (viSweepTieBody_stay api db tier iteration)
    (positionsOfSize tierSize) (t, false) h).1

/-- Number of positions of the tier never exceeds the tier size. -/
theorem undecidedCount_le (tierSize : Nat) (t : VTable) :
    undecidedCount tierSize t ≤ tierSize := by
  unfold undecidedCount
  calc (positionsOfSize tierSize).countP
        (fun p => decide ((t p).1 = Value.undecided))
      ≤ (positionsOfSize tierSize).length := List.countP_le_length _
    _ = tierSize := by simp [positionsOfSize]

/-- Stepping the win/lose sweep body never increases the number of undecided
positions, and a raised flag means either the flag was already raised or the
count strictly dropped. -/
theorem viSweepWinLoseBody_count (api : SolverApi) (db : Db) (tier : Int)
    (iteration : Nat) (tierSize : Nat) (acc : VTable × Bool) (pos : Int)
    (hmem : pos ∈ positionsOfSize tierSize) :
    undecidedCount tierSize (viSweepWinLoseBody api db tier iteration acc pos).1 ≤
      undecidedCount tierSize acc.1 ∧
    ((viSweepWinLoseBody api db tier iteration acc pos).2 = true →
      acc.2 = true ∨
        undecidedCount tierSize (viSweepWinLoseBody api db tier iteration acc pos).1 <
          undecidedCount tierSize acc.1) := by
  unfold viSweepWinLoseBody
  split
  · exact ⟨le_refl _, fun h => Or.inl h⟩
  · rename_i hcond
    have hund : (acc.1 pos).1 = Value.undecided := not_not.mp hcond
    cases hr : (iterateWinLoseProcessPosition api db tier iteration pos acc.1).2 with
    | false =>
      have heq : (iterateWinLoseProcessPosition api db tier iteration pos acc.1).1 =
          acc.1 :=
        (iterateWinLoseLoop_updated db tier iteration pos acc.1 _ _ _).1 hr
      constructor
      · show undecidedCount tierSize
          (iterateWinLoseProcessPosition api db tier iteration pos acc.1).1 ≤ _
        rw [heq]
      · intro h
        have h2 : acc.2 = true := by
          have : (acc.2 ||
              (iterateWinLoseProcessPosition api db tier iteration pos acc.1).2) =
              true := h
          rw [hr] at this
          simpa using this
        exact Or.inl h2
    | true =>
      obtain ⟨v, hv, hvne⟩ :=
        (iterateWinLoseLoop_updated db tier iteration pos acc.1 _ _ _).2 hr
      have hlt : undecidedCount tierSize
          (iterateWinLoseProcessPosition api db tier iteration pos acc.1).1 <
          undecidedCount tierSize acc.1 := by
        unfold undecidedCount iterateWinLoseProcessPosition
        rw [hv]
        exact countP_update_lt _ (nodup_positionsOfSize tierSize) pos hmem acc.1 v
          hund hvne
      exact ⟨le_of_lt hlt, fun _ => Or.inr hlt⟩

/-- Stepping the tie sweep body never increases the number of undecided
positions, and a raised flag means either the flag was already raised or the
count strictly dropped. -/
theorem viSweepTieBody_count (api : SolverApi) (db : Db) (tier : Int)
    (iteration : Nat) (tierSize : Nat) (acc : VTable × Bool) (pos : Int)
    (hmem : pos ∈ positionsOfSize tierSize) :
    undecidedCount tierSize (viSweepTieBody api db tier iteration acc pos).1 ≤
      undecidedCount tierSize acc.1 ∧
    ((viSweepTieBody api db tier iteration acc pos).2 = true →
      acc.2 = true ∨
        undecidedCount tierSize (viSweepTieBody api db tier iteration acc pos).1 <
          undecidedCount tierSize acc.1) := by
  unfold viSweepTieBody
  split
  · exact ⟨le_refl _, fun h => Or.inl h⟩
  · rename_i hcond
    have hund : (acc.1 pos).1 = Value.undecided := not_not.mp hcond
    cases hr : (iterateTieProcessPosition api db tier iteration pos acc.1).2 with
    | false =>
      have heq : (iterateTieProcessPosition api db tier iteration pos acc.1).1 =
          acc.1 :=
        (iterateTieLoop_updated db tier iteration pos acc.1 _).1 hr
      constructor
      · show undecidedCount tierSize
          (iterateTieProcessPosition api db tier iteration pos acc.1).1 ≤ _
        rw [heq]
      · intro h
        have h2 : acc.2 = true := by
          have : (acc.2 ||
              (iterateTieProcessPosition api db tier iteration pos acc.1).2) =
              true := h
          rw [hr] at this
          simpa using this
        exact Or.inl h2
    | true =>
      obtain ⟨v, hv, hvne⟩ :=
        (iterateTieLoop_updated db tier iteration pos acc.1 _).2 hr
      have hlt : undecidedCount tierSize
          (iterateTieProcessPosition api db tier iteration pos acc.1).1 <
          undecidedCount tierSize acc.1 := by
        unfold undecidedCount iterateTieProcessPosition
        rw [hv]
        exact countP_update_lt _ (nodup_positionsOfSize tierSize) pos hmem acc.1 v
          hund hvne
      exact ⟨le_of_lt hlt, fun _ => Or.inr hlt⟩

/-- Folding a sweep body over any sublist of the tier keeps the undecided
count non-increasing, and a raised final flag means the starting flag was
raised or the count strictly dropped. -/
theorem sweep_fold_count (cnt : VTable → Nat)
    (body : (VTable × Bool) → Int → VTable × Bool) :
    ∀ (l : List Int),
      (∀ acc pos, pos ∈ l →
        cnt (body acc pos).1 ≤ cnt acc.1 ∧
        ((body acc pos).2 = true →
          acc.2 = true ∨ cnt (body acc pos).1 < cnt acc.1)) →
      ∀ acc : VTable × Bool,
        cnt (l.foldl body acc).1 ≤ cnt acc.1 ∧
        ((l.foldl body acc).2 = true →
          acc.2 = true ∨ cnt (l.foldl body acc).1 < cnt acc.1) := by
  intro l
  induction l with
  | nil => exact fun _ acc => ⟨le_refl _, fun h => Or.inl h⟩
  | cons a rest ih =>
    intro hbody acc
    have ha := hbody acc a (List.mem_cons_self a rest)
    have hrest := ih (fun acc p hp => hbody acc p (List.mem_cons_of_mem a hp))
      (body acc a)
    rw [List.foldl_cons]
    refine ⟨le_trans hrest.1 ha.1, fun h => ?_⟩
    rcases hrest.2 h with hflag | hlt
    · rcases ha.2 hflag with hflag2 | hlt2
      · exact Or.inl hflag2
      · exact Or.inr (lt_of_le_of_lt hrest.1 hlt2)
    · exact Or.inr (lt_of_lt_of_le hlt ha.1)

/-- A win/lose sweep that reports an update strictly decreases the number of
undecided positions. -/
theorem viSweepWinLose_count (api : SolverApi) (db : Db) (tier : Int)
    (tierSize : Nat) (iteration : Nat) (t : VTable)
    (h : (viSweepWinLose api db tier tierSize iteration t).2 = true) :
    undecidedCount tierSize (viSweepWinLose api db tier tierSize iteration t).1 <
      undecidedCount tierSize t := by
  have := (sweep_fold_count (undecidedCount tierSize)
    (viSweepWinLoseBody api db tier iteration) (positionsOfSize tierSize)
    (fun acc pos hp => viSweepWinLoseBody_count api db tier iteration tierSize
      acc pos hp) (t, false)).2 h
  rcases this with hflag | hlt
  · exact absurd hflag (by simp)
  · exact hlt

/-- A tie sweep that reports an update strictly decreases the number of
undecided positions. -/
theorem viSweepTie_count (api : SolverApi) (db : Db) (tier : Int)
    (tierSize : Nat) (iteration : Nat) (t : VTable)
    (h : (viSweepTie api db tier tierSize iteration t).2 = true) :
    undecidedCount tierSize (viSweepTie api db tier tierSize iteration t).1 <
      undecidedCount tierSize t := by
  have := (sweep_fold_count (undecidedCount tierSize)
    (viSweepTieBody api db tier iteration) (positionsOfSize tierSize)
    (fun acc pos hp => viSweepTieBody_count api db tier iteration tierSize
      acc pos hp) (t, false)).2 h
  rcases this with hflag | hlt
  · exact absurd hflag (by simp)
  · exact hlt

/-- One unfolding step of the fueled iteration driver. -/
theorem viIterateLoop_succ (sweep : Nat → VTable → VTable × Bool) (bound : Int)
    (fuel i : Nat) (u : Bool) (t : VTable) :
    viIterateLoop sweep bound (fuel + 1) i u t =
      if u = true ∨ (i : Int) ≤ bound + 1 then
        viIterateLoop sweep bound fuel (i + 1) (sweep i t).2 (sweep i t).1
      else t := rfl

/-- Once the loop condition is false the driver returns its table unchanged,
for every fuel. -/
theorem viIterateLoop_exit (sweep : Nat → VTable → VTable × Bool) (bound : Int)
    (fuel i : Nat) (u : Bool) (t : VTable)
    (h : ¬(u = true ∨ (i : Int) ≤ bound + 1)) :
    viIterateLoop sweep bound fuel i u t = t := by
  cases fuel with
  | zero => rfl
  | succ n => rw [viIterateLoop_succ, if_neg h]

/-- Fuel still needed by the iteration driver from state `(i, u, t)`: an
updating sweep pays for itself twice over in undecided positions, a final
non-updating sweep costs one, and the forced iterations up to `bound + 1`
cost one each. -/
def viNeeded (tierSize : Nat) (bound : Int) (i : Nat) (u : Bool)
    (t : VTable) : Nat :=
  2 * undecidedCount tierSize t + (if u = true then 1 else 0) +
    (bound + 1 - i).toNat + 1

/-- Adding one unit of fuel beyond `viNeeded` does not change the driver's
result, for any sweep that is the identity when it reports no update and
strictly decreases the undecided count when it reports one. -/
theorem viIterateLoop_fuel_succ (sweep : Nat → VTable → VTable × Bool)
    (bound : Int) (tierSize : Nat)
    (hstay : ∀ j s, (sweep j s).2 = false → (sweep j s).1 = s)
    (hcount : ∀ j s, (sweep j s).2 = true →
      undecidedCount tierSize (sweep j s).1 < undecidedCount tierSize s) :
    ∀ (fuel i : Nat) (u : Bool) (t : VTable),
      viNeeded tierSize bound i u t ≤ fuel →
      viIterateLoop sweep bound (fuel + 1) i u t =
        viIterateLoop sweep bound fuel i u t := by
  intro fuel
  induction fuel with
  | zero =>
    intro i u t h
    exact absurd h (by unfold viNeeded; omega)
  | succ n ih =>
    intro i u t h
    by_cases hc : u = true ∨ (i : Int) ≤ bound + 1
    · rw [viIterateLoop_succ sweep bound (n + 1) i u t,
        viIterateLoop_succ sweep bound n i u t, if_pos hc, if_pos hc]
      have hu01 : (if u = true then 1 else 0) = 0 ∨
          (if u = true then 1 else 0) = 1 := by cases u <;> simp
      cases hr : (sweep i t).2 with
      | true =>
        apply ih
        have hlt := hcount i t hr
        unfold viNeeded at h ⊢
        have h1 : (if (true = true) then 1 else 0) = 1 := rfl
        rw [h1]
        omega
      | false =>
        rw [hstay i t hr]
        by_cases hc2 : ((i + 1 : Nat) : Int) ≤ bound + 1
        · apply ih
          unfold viNeeded at h ⊢
          have hu0 : (if (false = true) then 1 else 0) = 0 := rfl
          rw [hu0]
          rcases hu01 with h0 | h1
          · have hu : u = false := by
              revert h0; cases u <;> simp
            have hci : (i : Int) ≤ bound + 1 := by
              rcases hc with hcu | hci
              · rw [hu] at hcu; exact absurd hcu (by simp)
              · exact hci
            omega
          · omega
        · have hex : ¬(false = true ∨ ((i + 1 : Nat) : Int) ≤ bound + 1) := by
            intro hor
            rcases hor with hff | hle
            · exact absurd hff (by simp)
            · exact hc2 hle
          rw [viIterateLoop_exit sweep bound (n + 1) (i + 1) false t hex,
            viIterateLoop_exit sweep bound n (i + 1) false t hex]
    · rw [viIterateLoop_exit sweep bound (n + 1 + 1) i u t hc,
        viIterateLoop_exit sweep bound (n + 1) i u t hc]

/-- Any amount of extra fuel beyond `viNeeded` leaves the driver's result
unchanged. -/
theorem viIterateLoop_fuel_add (sweep : Nat → VTable → VTable × Bool)
    (bound : Int) (tierSize : Nat)
    (hstay : ∀ j s, (sweep j s).2 = false → (sweep j s).1 = s)
    (hcount : ∀ j s, (sweep j s).2 = true →
      undecidedCount tierSize (sweep j s).1 < undecidedCount tierSize s)
    (fuel i : Nat) (u : Bool) (t : VTable)
    (h : viNeeded tierSize bound i u t ≤ fuel) :
    ∀ extra : Nat, viIterateLoop sweep bound (fuel + extra) i u t =
      viIterateLoop sweep bound fuel i u t := by
  intro extra
  induction extra with
  | zero => rfl
  | succ m ihm =>
    have : fuel + (m + 1) = (fuel + m) + 1 := by omega
    rw [this, viIterateLoop_fuel_succ sweep bound tierSize hstay hcount
      (fuel + m) i u t (le_trans h (Nat.le_add_right fuel m)), ihm]

/-- The fuel `viFuel` given to the win/lose iteration is sufficient: adding
any extra fuel leaves `viStep4_0IterateWinLose` unchanged, so the fueled
model computes the same fixed point as the unbounded C loop. -/
theorem viStep4_0IterateWinLose_fuel (api : SolverApi) (db : Db) (tier : Int)
    (tierSize : Nat) (bound : Int) (t : VTable) (extra : Nat) :
    viIterateLoop (viSweepWinLose api db tier tierSize) bound
      (viFuel tierSize bound + extra) 1 false t =
      viStep4_0IterateWinLose api db tier tierSize bound t := by
  unfold viStep4_0IterateWinLose
  apply viIterateLoop_fuel_add (viSweepWinLose api db tier tierSize) bound
    tierSize
    (fun j s => viSweepWinLose_stay api db tier tierSize j s)
    (fun j s => viSweepWinLose_count api db tier tierSize j s)
  have hle := undecidedCount_le tierSize t
  unfold viNeeded viFuel
  have h0 : (if (false = true) then 1 else 0) = 0 := rfl
  rw [h0]
  omega

/-- The fuel `viFuel` given to the tie iteration is sufficient: adding any
extra fuel leaves `viStep4_1IterateTie` unchanged. -/
theorem viStep4_1IterateTie_fuel (api : SolverApi) (db : Db) (tier : Int)
    (tierSize : Nat) (bound : Int) (t : VTable) (extra : Nat) :
    viIterateLoop (viSweepTie api db tier tierSize) bound
      (viFuel tierSize bound + extra) 1 false t =
      viStep4_1IterateTie api db tier tierSize bound t := by
  unfold viStep4_1IterateTie
  apply viIterateLoop_fuel_add (viSweepTie api db tier tierSize) bound
    tierSize
    (fun j s => viSweepTie_stay api db tier tierSize j s)
    (fun j s => viSweepTie_count api db tier tierSize j s)
  have hle := undecidedCount_le tierSize t
  unfold viNeeded viFuel
  have h0 : (if (false = true) then 1 else 0) = 0 := rfl
  rw [h0]
  omega

end Gamesman
